import Mathlib

/-!
Verification development for the multi-account trading orchestrator
(`back_office_server`).  Each Python service method the properties talk
about is embedded as an executable Lean function; times are integer
seconds, monetary quantities are rationals, and fallible calls
(upstream API, database commits) are injected as explicit outcome data
so that control flow can be followed exactly as written in the source.
-/

namespace Autobot

/-! ## Encryption utilities (`app/utils/encryption.py`)

`decrypt_sensitive_data` never raises: the key-less path falls back to
base64 decoding, and the keyed path catches any Fernet failure, retries
plain base64, and finally returns the input unchanged.  The two
fallible decoding steps are injected as `Option` oracles. -/

namespace Encryption

/-- Result of `decrypt_sensitive_data`, as embedded: always a plain
string, never an error. -/
structure DecryptEnv where
  /-- `settings.ENCRYPTION_KEY`, `None` when unset. -/
  encryption_key : Option String
  /-- Outcome of the Fernet path (base64-decode the stored form, then
  `cipher.decrypt`): `none` models the `except` branch being taken. -/
  fernet_decrypt : Option String
  /-- Outcome of `base64.b64decode(encrypted_data).decode()` used by
  both fallback branches: `none` models that decode raising. -/
  b64_decode : Option String

/-- Embedding of `decrypt_sensitive_data(encrypted_data)`. -/
def decrypt_sensitive_data (env : DecryptEnv) (encrypted_data : String) : String :=
  match env.encryption_key with
  | none =>
    match env.b64_decode with
    | some s => s
    | none => encrypted_data
  | some _ =>
    match env.fernet_decrypt with
    | some s => s
    | none =>
      match env.b64_decode with
      | some s => s
      | none => encrypted_data

/-- Distinguished decryption error demanded by the specification. -/
inductive CryptoError where
  | decryptFailure : String → CryptoError
deriving DecidableEq

/-- Modelled from the spec: `Decrypt(ciphertext) → plaintext` or a
distinguished `CryptoError` on failure; never a silent fallback. -/
def decrypt_spec (env : DecryptEnv) (encrypted_data : String) :
    Except CryptoError String :=
  match env.fernet_decrypt with
  | some s => .ok s
  | none => .error (.decryptFailure encrypted_data)

end Encryption

/-! ## Position sizing (`OrderOrchestrator._calculate_position_size`) -/

namespace OrderOrchestrator

/-- Embedding of `_calculate_position_size(balance_info, default_volume)`
(the `balance` field has already been extracted from `balance_info`). -/
def calculate_position_size (balance : ℚ) (default_volume : ℚ) : ℚ :=
  if balance < 1000 then min default_volume (1 / 100)
  else if balance < 5000 then min default_volume (5 / 100)
  else default_volume

end OrderOrchestrator

/-! ## Sweep classification (`SessionManager.check_session_health`) -/

namespace SessionManager

/-- A `user_sessions` row as read by the health sweep (`expires_at` is a
nullable column; times are integer seconds). -/
structure SessionRow where
  user_id : Int
  expires_at : Option Int
deriving DecidableEq, Repr

/-- The classification loop of `check_session_health`: for each session
with a non-null `expires_at`, compute `time_until_expiry` and place the
`user_id` into exactly one of (healthy, expiring_soon, expired);
sessions with `expires_at = None` are skipped entirely. -/
def classifySessions : List SessionRow → Int → List Int × List Int × List Int
  | [], _ => ([], [], [])
  | s :: rest, now =>
    let (h, e, x) := classifySessions rest now
    match s.expires_at with
    | none => (h, e, x)
    | some t =>
      let time_until_expiry := t - now
      if time_until_expiry ≤ 0 then (h, e, s.user_id :: x)
      else if time_until_expiry ≤ 300 then (h, s.user_id :: e, x)
      else (s.user_id :: h, e, x)

/-- A `users` row as read by the session manager. -/
structure UserRow where
  id : Int
  email : String
  encrypted_password : String
  broker_id : String
  is_active : Bool

/-- Token bundle returned by the upstream `login` call; the source
treats a missing `token` or `trading_api_token` as a
`MatchTradeAPIError` raised inside the `try`. -/
structure TokenBundle where
  token : Option String
  trading_api_token : Option String
  trading_account_id : Option String

/-- Failure modes of an upstream call: `apiError` is
`MatchTradeAPIError` (retried / re-login path), `otherError` is any
other exception (caught by the generic handler). -/
inductive ApiFailure where
  | apiError (msg : String)
  | otherError (msg : String)
deriving DecidableEq

/-- A per-user result dict, as returned by `login_user`,
`refresh_token` and `logout_user` (success flag, user id, error). -/
structure LoginResult where
  success : Bool
  user_id : Int
  error : Option String
deriving DecidableEq, Repr

/-- Environment for `login_user` / `login_all_users`: the `users`
table, the decryption environment, and oracles for the upstream login
call (indexed by user id and attempt number) and the session-row
commit.  The session-row upsert itself is represented only by its
commit outcome: no property below mentions the row contents. -/
structure LoginEnv where
  users : List UserRow
  decrypt : Encryption.DecryptEnv
  api_login : Int → Nat → Except ApiFailure TokenBundle
  commit_ok : Int → Bool
  max_retry_attempts : Nat

/-- Embedding of `login_user(user_id, retry_count)`.  Every exception
raised in the body is caught: `MatchTradeAPIError` (including the
missing-token raise) retries with backoff up to `max_retry_attempts`,
anything else returns a failure dict; the commit failure is re-raised
after rollback and lands in the generic handler. -/
def login_user (env : LoginEnv) (user_id : Int) (retry_count : Nat) : LoginResult :=
  match env.users.find? (fun u => u.id = user_id) with
  | none => ⟨false, user_id, some "User not found"⟩
  | some u =>
    if u.is_active = false then ⟨false, user_id, some "User is not active"⟩
    else
      -- `decrypt_sensitive_data` never raises; its value feeds the API call.
      let _password := Encryption.decrypt_sensitive_data env.decrypt u.encrypted_password
      match env.api_login user_id retry_count with
      | .ok bundle =>
        if bundle.token = none ∨ bundle.trading_api_token = none then
          -- raise MatchTradeAPIError("Missing tokens in login response")
          if h : retry_count < env.max_retry_attempts then
            login_user env user_id (retry_count + 1)
          else ⟨false, user_id, some "Missing tokens in login response"⟩
        else if env.commit_ok user_id then ⟨true, user_id, none⟩
        else ⟨false, user_id, some "commit failed"⟩
      | .error (.apiError msg) =>
        if h : retry_count < env.max_retry_attempts then
          login_user env user_id (retry_count + 1)
        else ⟨false, user_id, some msg⟩
      | .error (.otherError msg) => ⟨false, user_id, some msg⟩
termination_by env.max_retry_attempts - retry_count
decreasing_by all_goals omega

/-- Aggregate returned by `login_all_users`. -/
structure LoginAllResult where
  success : Bool
  total_users : Nat
  successful_logins : Nat
  failed_logins : Nat
  results : List LoginResult
deriving DecidableEq, Repr

/-- Embedding of `login_all_users`: query active users, launch
`login_user` for each (gathered with `return_exceptions=True`; the
children cannot raise), count successes and failures. -/
def login_all_users (env : LoginEnv) : LoginAllResult :=
  let users := env.users.filter (fun u => u.is_active)
  if users.isEmpty then
    { success := true, total_users := 0, successful_logins := 0,
      failed_logins := 0, results := [] }
  else
    let results := users.map (fun u => login_user env u.id 0)
    let successful := (results.filter (fun r => r.success)).length
    { success := true, total_users := users.length,
      successful_logins := successful,
      failed_logins := results.length - successful, results := results }

/-- Environment for `refresh_token` / `refresh_all_tokens`: the active
session rows plus oracles for the upstream refresh call and its
commit; re-login falls back to `login_user` with the inner
environment. -/
structure RefreshEnv where
  loginEnv : LoginEnv
  sessions : List SessionRow
  api_refresh : Int → Except ApiFailure Unit
  refresh_commit_ok : Int → Bool

/-- Embedding of `refresh_token(user_id)`: no active session or a
`MatchTradeAPIError` falls back to `login_user`; the commit failure is
re-raised into the generic handler; any other exception returns a
failure dict. -/
def refresh_token (env : RefreshEnv) (user_id : Int) : LoginResult :=
  match env.sessions.find? (fun s => s.user_id = user_id) with
  | none => login_user env.loginEnv user_id 0
  | some _ =>
    match env.api_refresh user_id with
    | .ok _ =>
      if env.refresh_commit_ok user_id then ⟨true, user_id, none⟩
      else ⟨false, user_id, some "commit failed"⟩
    | .error (.apiError _) => login_user env.loginEnv user_id 0
    | .error (.otherError msg) => ⟨false, user_id, some msg⟩

/-- Aggregate returned by `refresh_all_tokens`. -/
structure RefreshAllResult where
  success : Bool
  total_sessions : Nat
  successful_refreshes : Nat
  failed_refreshes : Nat
deriving DecidableEq, Repr

/-- Embedding of `refresh_all_tokens`: gather `refresh_token` over all
active sessions and count. -/
def refresh_all_tokens (env : RefreshEnv) : RefreshAllResult :=
  if env.sessions.isEmpty then
    { success := true, total_sessions := 0, successful_refreshes := 0,
      failed_refreshes := 0 }
  else
    let results := env.sessions.map (fun s => refresh_token env s.user_id)
    let successful := (results.filter (fun r => r.success)).length
    { success := true, total_sessions := env.sessions.length,
      successful_refreshes := successful,
      failed_refreshes := results.length - successful }

/-- Environment for `check_session_health`: the active session rows,
the per-user `db.execute(update(...))` deactivation outcome (this call
is *not* inside a `try` in the source), and the commit outcome (whose
failure *is* caught and swallowed). -/
structure SweepEnv where
  sessions : List SessionRow
  deactivate : Int → Except String Unit
  sweep_commit_ok : Bool

/-- The deactivation loop over the expired uids: each iteration is an
`await db.execute(update(...))` *outside* any `try`, so the first
failure propagates. -/
def deactivateAll (deactivate : Int → Except String Unit) :
    List Int → Except String Unit
  | [] => .ok ()
  | uid :: rest => do
    let _ ← deactivate uid
    deactivateAll deactivate rest

/-- Health report returned by `check_session_health`. -/
structure HealthReport where
  total_sessions : Nat
  healthy : Nat
  expiring_soon : Nat
  expired : Nat
  healthy_user_ids : List Int
  expiring_user_ids : List Int
  expired_user_ids : List Int
deriving DecidableEq, Repr

/-- Embedding of `check_session_health`: classify all active sessions,
auto-refresh the expiring ones (gathered with
`return_exceptions=True`, hence unable to raise and without effect on
the report), deactivate each expired one via an *unprotected*
`db.execute`, then commit inside a `try` whose failure is swallowed. -/
def check_session_health (env : SweepEnv) (now : Int) :
    Except String HealthReport := do
  let c := classifySessions env.sessions now
  let _ ← deactivateAll env.deactivate c.2.2
  let _ := env.sweep_commit_ok
  pure { total_sessions := env.sessions.length, healthy := c.1.length,
         expiring_soon := c.2.1.length, expired := c.2.2.length,
         healthy_user_ids := c.1, expiring_user_ids := c.2.1,
         expired_user_ids := c.2.2 }

end SessionManager

/-! ## Order orchestrator (`app/services/order_orchestrator.py`)

Monetary quantities are rationals, timestamps integer seconds.  The
`orders` table is a list in insertion order; `ORDER BY created_at
DESC` is a stable descending sort on `created_at` (ties keep the
underlying row order), `.first()` takes its head.  Upstream calls and
commits are injected as explicit outcomes. -/

namespace OrderOrchestrator

/-- Python's `str.upper()` over the (ASCII) action strings, defined on
the character list so that proofs can evaluate it. -/
def pyUpper (s : String) : String := ⟨s.data.map Char.toUpper⟩

/-- Python's `x or y` over an optional float: `None` and `0.0` are
falsy and fall through to `y`. -/
def pyOr (x : Option ℚ) (y : ℚ) : ℚ :=
  match x with
  | none => y
  | some v => if v = 0 then y else v

/-- An `orders` row, with the fields the orchestrator reads or
writes. -/
structure OrderRow where
  id : Int
  user_id : Int
  order_uuid : Option String
  symbol : String
  side : String
  status : String
  created_at : Int
  executed_at : Option Int
  closed_at : Option Int
deriving DecidableEq, Repr

/-- A `trades` row as inserted by `_record_trade`. -/
structure TradeRow where
  order_id : Int
  user_id : Int
  symbol : String
  side : String
  entry_price : ℚ
  exit_price : ℚ
  quantity : ℚ
  profit_loss : ℚ
  profit_loss_percent : Option ℚ
  commission : ℚ
  duration_seconds : Option Int
  executed_at : Option Int
  closed_at : Int
deriving DecidableEq, Repr

/-- The slice of the database the orchestrator touches. -/
structure DB where
  orders : List OrderRow
  trades : List TradeRow
deriving DecidableEq, Repr

/-- An upstream position payload: the `id`/`uuid`/`positionId`
coalescing is already folded into `pid`; the remaining keys are kept
separate because the source coalesces them with Python `or`. -/
structure UpPosition where
  pid : Option String
  symbol : Option String
  entry_price : Option ℚ
  open_price : Option ℚ
  close_price : Option ℚ
  volume : Option ℚ
  profit : Option ℚ
  profit_loss : Option ℚ
deriving DecidableEq, Repr

/-- An upstream close-position response. -/
structure CloseResult where
  close_price : Option ℚ
  profit : Option ℚ
  profit_loss : Option ℚ
  commission : Option ℚ
deriving DecidableEq, Repr

/-- Insert into a list already sorted by `created_at` descending,
after any element with an equal or larger key (stability: ties keep
the original row order). -/
def insertByCreatedDesc (o : OrderRow) : List OrderRow → List OrderRow
  | [] => [o]
  | x :: xs =>
    if o.created_at < x.created_at then x :: insertByCreatedDesc o xs
    else o :: x :: xs

/-- Stable sort by `created_at` descending (`ORDER BY created_at
DESC`). -/
def sortByCreatedDesc (l : List OrderRow) : List OrderRow :=
  l.foldr insertByCreatedDesc []

/-- The ordering maintained by `sortByCreatedDesc`. -/
def createdGE (a b : OrderRow) : Prop := b.created_at ≤ a.created_at

/-- `select(Order).where(Order.order_uuid == pid, Order.user_id ==
uid)` with `scalar_one_or_none` (a `None` pid renders `IS NULL`). -/
def findByUuid (orders : List OrderRow) (pid : Option String) (user_id : Int) :
    Option OrderRow :=
  orders.find? (fun o => o.order_uuid = pid ∧ o.user_id = user_id)

/-- The supervisor's uuid lookup (`_check_user_positions` filters by
`order_uuid` only, with no user clause). -/
def findByUuidAnyUser (orders : List OrderRow) (pid : Option String) :
    Option OrderRow :=
  orders.find? (fun o => o.order_uuid = pid)

/-- The symbol-fallback query: most recent `OPEN` order for `(uid,
symbol)` — `ORDER BY created_at DESC` then `.first()`. -/
def findBySymbolFallback (orders : List OrderRow) (user_id : Int)
    (symbol : String) : Option OrderRow :=
  (sortByCreatedDesc (orders.filter
    (fun o => o.symbol = symbol ∧ o.user_id = user_id ∧ o.status = "OPEN"))).head?

/-- Body of `_record_trade` up to (and including) the commit: locate
the order by uuid, fall back to the symbol match, mark it `CLOSED`,
set its `order_uuid` if it was null, compute the trade metrics and
insert the `Trade`; a commit failure rolls the transaction back and
re-raises. -/
def record_trade_attempt (db : DB) (commit_ok : Bool) (user_id : Int)
    (position : UpPosition) (close_result : CloseResult) (now : Int) :
    Except String DB :=
  let position_id := position.pid
  let fromUuid := findByUuid db.orders position_id user_id
  let order? := match fromUuid with
    | some o => some o
    | none =>
      match position.symbol with
      | some sym => findBySymbolFallback db.orders user_id sym
      | none => none
  match order? with
  | none => .ok db
  | some o =>
    let o' := { o with
      status := "CLOSED",
      closed_at := some now,
      order_uuid := match position_id, o.order_uuid with
        | some q, none => some q
        | _, _ => o.order_uuid }
    let entry_price := pyOr position.entry_price (position.open_price.getD 0)
    let exit_price := pyOr position.close_price (close_result.close_price.getD 0)
    let volume := position.volume.getD 0
    let profit_loss := pyOr close_result.profit (close_result.profit_loss.getD 0)
    let trade : TradeRow := {
      order_id := o.id, user_id := user_id, symbol := o.symbol, side := o.side,
      entry_price := entry_price, exit_price := exit_price, quantity := volume,
      profit_loss := profit_loss,
      profit_loss_percent :=
        if entry_price ≠ 0 ∧ volume ≠ 0 then
          some (profit_loss / (entry_price * volume) * 100)
        else none,
      commission := close_result.commission.getD 0,
      duration_seconds := o.executed_at.map (fun t => now - t),
      executed_at := o.executed_at, closed_at := now }
    let db' : DB := {
      orders := db.orders.map (fun x => if x.id = o.id then o' else x),
      trades := db.trades ++ [trade] }
    if commit_ok then .ok db' else .error "commit failed"

/-- `_record_trade` itself: the whole body sits inside a catch-all
`except`, so any failure (here: the re-raised commit error) is logged
and swallowed, leaving the rolled-back database unchanged. -/
def record_trade (db : DB) (commit_ok : Bool) (user_id : Int)
    (position : UpPosition) (close_result : CloseResult) (now : Int) : DB :=
  match record_trade_attempt db commit_ok user_id position close_result now with
  | .ok d => d
  | .error _ => db

/-- Per-user environment of `_close_positions_for_user`: the
`get_opened_positions` outcome, the per-position `close_position`
outcome, and the per-position `_record_trade` commit outcome. -/
structure CloseUserEnv where
  positions_result : Except String (List UpPosition)
  close_result : Option String → Except String CloseResult
  commit_ok : Option String → Bool

/-- Per-user result dict of `_close_positions_for_user`. -/
structure CloseUserResult where
  success : Bool
  user_id : Int
  closed_count : Nat
  error : Option String
deriving DecidableEq, Repr

/-- Embedding of `_close_positions_for_user`: list the open positions
(any exception here yields a per-user failure dict), filter by symbol
when one is given, close them all concurrently, record a trade for
every close that returned a dict, and count those as
`closed_count` — independently of whether recording succeeded. -/
def close_positions_for_user (db : DB) (env : CloseUserEnv) (user_id : Int)
    (symbol : Option String) (now : Int) : DB × CloseUserResult :=
  match env.positions_result with
  | .error e => (db, ⟨false, user_id, 0, some e⟩)
  | .ok allPositions =>
    let positions := match symbol with
      | some sym => allPositions.filter (fun (p : UpPosition) => p.symbol = some sym)
      | none => allPositions
    if positions.isEmpty then (db, ⟨true, user_id, 0, none⟩)
    else
      let db' := positions.foldl (fun (acc : DB) (p : UpPosition) =>
        match env.close_result p.pid with
        | .ok res => record_trade acc (env.commit_ok p.pid) user_id p res now
        | .error _ => acc) db
      let successful_closes := (positions.filter (fun (p : UpPosition) =>
        match env.close_result p.pid with
        | .ok _ => true
        | .error _ => false)).length
      (db', ⟨true, user_id, successful_closes, none⟩)

/-- The auto-close decision of `_check_user_positions` for one
position, with its `close_reason`: the holding-time check runs first,
but the profit target overwrites its verdict, and the loss cutoff is
only reached when the profit target missed. -/
def shouldClose (executed_at : Option Int) (now : Int) (current_pl : ℚ) :
    Bool × String :=
  let base : Bool × String :=
    match executed_at with
    | some t =>
      if now - t > 300 then (true, "Max holding time exceeded") else (false, "")
    | none => (false, "")
  if current_pl ≥ 100 then (true, "Target profit reached")
  else if current_pl ≤ -50 then (true, "Stop loss triggered")
  else base

/-- Modelled from the spec: the same three rules applied in the listed
order with the *first* hit winning (§4.5). -/
def shouldCloseSpec (executed_at : Option Int) (now : Int) (current_pl : ℚ) :
    Bool × String :=
  let maxHolding : Bool :=
    match executed_at with
    | some t => now - t > 300
    | none => false
  if maxHolding then (true, "Max holding time exceeded")
  else if current_pl ≥ 100 then (true, "Target profit reached")
  else if current_pl ≤ -50 then (true, "Stop loss triggered")
  else (false, "")

/-- Per-user environment of the supervisor tick: the per-position
close outcome and `_record_trade` commit outcome. -/
structure SupervisorEnv where
  close_result : Option String → Except String CloseResult
  commit_ok : Option String → Bool

/-- One iteration of the position loop in `_check_user_positions`:
reconcile by uuid (no user clause) or by symbol fallback, skip when no
local row, evaluate the auto-close policy, and on a hit close the
position upstream and record the trade (a close failure is caught and
not counted). -/
def check_user_positions_step (env : SupervisorEnv) (user_id : Int) (now : Int)
    (acc : DB × Nat) (p : UpPosition) : DB × Nat :=
  let db := acc.1
  let position_id := p.pid
  let fromUuid := findByUuidAnyUser db.orders position_id
  let order? := match fromUuid with
    | some o => some o
    | none =>
      match p.symbol with
      | some sym => findBySymbolFallback db.orders user_id sym
      | none => none
  match order? with
  | none => acc
  | some o =>
    let current_pl := pyOr p.profit (p.profit_loss.getD 0)
    if (shouldClose o.executed_at now current_pl).1 then
      match env.close_result position_id with
      | .ok res =>
        (record_trade db (env.commit_ok position_id) user_id p res now, acc.2 + 1)
      | .error _ => acc
    else acc

/-- Embedding of `_check_user_positions`: fold the loop over the
positions reported upstream; an error fetching them is caught and
yields zero closes. -/
def check_user_positions (db : DB) (env : SupervisorEnv) (user_id : Int)
    (positions_result : Except String (List UpPosition)) (now : Int) :
    DB × Nat :=
  match positions_result with
  | .error _ => (db, 0)
  | .ok positions =>
    positions.foldl (check_user_positions_step env user_id now) (db, 0)

/-- Result dict of `monitor_positions_once`. -/
structure MonitorResult where
  checked : Nat
  closed : Nat
  errors : Nat
deriving DecidableEq, Repr

/-- A session dict as handed to `_check_user_positions`: `user_id` is
always present, while `token` and `trading_api_token` are `Option`s
because a Python `dict` lookup of an absent key raises `KeyError`. -/
structure SessionDict where
  user_id : Int
  token : Option String
  trading_api_token : Option String
deriving DecidableEq, Repr

/-- The per-row dict built by `get_active_sessions`
(`session_manager.py`): its keys are `session_id`, `user_id`,
`trading_account_id`, `login_at`, `expires_at` and `last_refresh_at` —
it carries no `token` or `trading_api_token` key. -/
def get_active_sessions_dict (rows : List SessionManager.SessionRow) :
    List SessionDict :=
  rows.map (fun r => { user_id := r.user_id, token := none,
                       trading_api_token := none })

/-- The full `_check_user_positions` call as the tick sees it:
`session["token"]` and `session["trading_api_token"]` are read
*before* the `try`, so a missing key raises `KeyError` out of the
function; only then does the in-`try` body (`check_user_positions`)
run. -/
def check_user_positions_call (db : DB) (env : SupervisorEnv) (s : SessionDict)
    (positions_result : Except String (List UpPosition)) (now : Int) :
    Except String (DB × Nat) :=
  match s.token, s.trading_api_token with
  | none, _ => .error "KeyError: token"
  | _, none => .error "KeyError: trading_api_token"
  | some _, some _ =>
    .ok (check_user_positions db env s.user_id positions_result now)

/-- One session of the supervisor tick: a dict result accumulates its
`closed` count; an exception escaping `_check_user_positions` (such as
the `KeyError` on the token reads) is caught by the tick's per-session
handler and increments the error counter. -/
def monitor_step (env : SupervisorEnv) (now : Int) (acc : DB × MonitorResult)
    (s : SessionDict × Except String (List UpPosition)) : DB × MonitorResult :=
  match check_user_positions_call acc.1 env s.1 s.2 now with
  | .ok r => (r.1, { acc.2 with closed := acc.2.closed + r.2 })
  | .error _ => (acc.1, { acc.2 with errors := acc.2.errors + 1 })

/-- Embedding of `monitor_positions_once` (the supervisor tick): run
`_check_user_positions` for each active session, counting caught
per-session exceptions in `errors`.  Because the tick's session dicts
come from `get_active_sessions`, which emits no token keys, every
per-session call in the program raises `KeyError` before its `try` and
lands in the error counter. -/
def monitor_positions_once (db : DB) (env : SupervisorEnv)
    (sessions : List (SessionDict × Except String (List UpPosition)))
    (now : Int) : DB × MonitorResult :=
  sessions.foldl (monitor_step env now) (db, ⟨sessions.length, 0, 0⟩)

/-- An active session as consumed by the fan-out (only the user id is
relevant to the properties below; tokens ride along implicitly in the
per-user oracles). -/
structure SessionInfo where
  user_id : Int
deriving DecidableEq, Repr

/-- Environment of `execute_signal_for_all`: the active-session
snapshot and the per-user upstream/commit outcomes.  The order-row
insert of the open path is summarised by its commit outcome: no
property below reads the inserted row. -/
structure ExecEnv where
  sessions : List SessionInfo
  get_balance : Int → Except String ℚ
  open_position : Int → Except String UpPosition
  open_commit_ok : Int → Bool
  close_env : Int → CloseUserEnv

/-- The inbound signal payload (`signal.get("volume", 0.1)` supplies
the default). -/
structure Signal where
  action : String
  symbol : Option String
  volume : Option ℚ
  stop_loss : Option ℚ
  take_profit : Option ℚ
deriving DecidableEq, Repr

/-- Per-user result dict of `_execute_order_for_user`. -/
structure OrderResult where
  success : Bool
  user_id : Int
  volume : Option ℚ
  error : Option String
deriving DecidableEq, Repr

/-- Embedding of `_execute_order_for_user`: get the balance, size the
position, open it upstream, commit the order row; every exception is
caught and becomes a failure dict. -/
def execute_order_for_user (env : ExecEnv) (volume : ℚ) (user_id : Int) :
    OrderResult :=
  match env.get_balance user_id with
  | .error e => ⟨false, user_id, none, some e⟩
  | .ok balance =>
    let adjusted_volume := calculate_position_size balance volume
    match env.open_position user_id with
    | .error e => ⟨false, user_id, none, some e⟩
    | .ok _ =>
      if env.open_commit_ok user_id then ⟨true, user_id, some adjusted_volume, none⟩
      else ⟨false, user_id, none, some "commit failed"⟩

/-- The aggregate returned by `execute_signal_for_all`: the source
returns differently-shaped dicts for the error, open and close
paths. -/
inductive ExecResult where
  | failure (error : String)
  | opened (executed_count failed_count : Nat) (total_volume : ℚ)
      (results : List OrderResult)
  | closed (closed_count failed_count : Nat) (results : List CloseUserResult)
deriving DecidableEq, Repr

/-- The `success` field of the returned dict. -/
def ExecResult.success : ExecResult → Bool
  | .failure _ => false
  | _ => true

/-- The `executed_count` field (0 on the error paths). -/
def ExecResult.executed_count : ExecResult → Nat
  | .failure _ => 0
  | .opened n _ _ _ => n
  | .closed n _ _ => n

/-- The `failed_count` field. -/
def ExecResult.failed_count : ExecResult → Nat
  | .failure _ => 0
  | .opened _ f _ _ => f
  | .closed _ f _ => f

/-- Embedding of `execute_signal_for_all`: persist the signal (best
effort, swallowed — the row is not read by any property below), fetch
the active sessions, return a `success=False` error dict when there
are none, then dispatch on the upper-cased action. -/
def execute_signal_for_all (db : DB) (env : ExecEnv) (signal : Signal)
    (now : Int) : DB × ExecResult :=
  if env.sessions.isEmpty then (db, .failure "No active sessions")
  else
    let action := pyUpper signal.action
    if action = "OPEN_LONG" ∨ action = "OPEN_SHORT" then
      let results := env.sessions.map
        (fun s => execute_order_for_user env (signal.volume.getD (1 / 10)) s.user_id)
      let successful := results.filter (fun r => r.success)
      let failed := results.filter (fun r => ¬ r.success)
      (db, .opened successful.length failed.length
        (successful.foldl (fun acc r => acc + r.volume.getD 0) 0) results)
    else if action = "CLOSE" ∨ action = "CLOSE_ALL" then
      let folded := env.sessions.foldl
        (fun (acc : DB × List CloseUserResult) s =>
          let r := close_positions_for_user acc.1 (env.close_env s.user_id)
            s.user_id signal.symbol now
          (r.1, acc.2 ++ [r.2])) (db, [])
      let successful := (folded.2.filter (fun r => r.success)).length
      (folded.1, .closed successful (folded.2.length - successful) folded.2)
    else (db, .failure ("Unknown action: " ++ action))

end OrderOrchestrator

/-! ### Sample environments used by concrete witnesses -/

/-- A login environment with one succeeding user, one failing user and
one inactive user. -/
def sampleLoginEnv : SessionManager.LoginEnv where
  users := [⟨1, "ok@x", "pw", "b", true⟩, ⟨2, "bad@x", "pw", "b", true⟩,
            ⟨3, "off@x", "pw", "b", false⟩]
  decrypt := ⟨none, none, some "pw"⟩
  api_login := fun uid _ =>
    if uid = 1 then .ok ⟨some "t", some "tt", some "a"⟩
    else .error (.otherError "boom")
  commit_ok := fun _ => true
  max_retry_attempts := 3

/-- A refresh environment over two active sessions, one of which
refreshes and one of which fails terminally. -/
def sampleRefreshEnv : SessionManager.RefreshEnv where
  loginEnv := sampleLoginEnv
  sessions := [⟨1, some 100⟩, ⟨2, some 400⟩]
  api_refresh := fun uid => if uid = 1 then .ok () else .error (.otherError "down")
  refresh_commit_ok := fun _ => true

/-- A per-user close environment with no open positions. -/
def sampleCloseUserEnv : OrderOrchestrator.CloseUserEnv where
  positions_result := .ok []
  close_result := fun _ => .error "x"
  commit_ok := fun _ => true

/-- A fan-out environment over two sessions, one of which cannot fetch
its balance. -/
def sampleExecEnv : OrderOrchestrator.ExecEnv where
  sessions := [⟨5⟩, ⟨6⟩]
  get_balance := fun uid => if uid = 5 then .ok 500 else .error "net"
  open_position := fun _ =>
    .ok ⟨some "P1", some "BTCUSD", some 10, none, none, some (1 / 100), none, none⟩
  open_commit_ok := fun _ => true
  close_env := fun _ => sampleCloseUserEnv

/-- An `OPEN_LONG` signal for volume 0.1. -/
def sampleSignal : OrderOrchestrator.Signal :=
  ⟨"OPEN_LONG", some "BTCUSD", some (1 / 10), none, none⟩

/-- A supervisor environment whose closes and commits succeed. -/
def sampleSupervisorEnv : OrderOrchestrator.SupervisorEnv where
  close_result := fun _ => .ok ⟨some 11, some 5, none, some 0⟩
  commit_ok := fun _ => true

/-- A sweep environment with one expired session and a healthy
repository. -/
def sampleSweepEnv : SessionManager.SweepEnv where
  sessions := [⟨1, some 0⟩]
  deactivate := fun _ => .ok ()
  sweep_commit_ok := true

/-! ## Event bus (`app/services/websocket_manager.py` and
`app/api/websocket.py`)

Subscribers (WebSockets) are identified by naturals.  Channel
membership (`self.channels`, a dict of sets) is a function from channel
names to member lists together with the list of registered keys;
metadata is a partial map.  The per-send behaviour observed during a
`broadcast` is injected as an outcome per subscriber. -/

namespace WebsocketManager

/-- Subscriber identity (a WebSocket object). -/
abbrev WS := Nat

/-- The metadata kept per connection (the `connected_at` timestamp is
irrelevant to every property below and omitted). -/
structure Meta where
  channel : String
  messages_sent : Nat
deriving DecidableEq, Repr

/-- State of `ConnectionManager`. -/
structure Manager where
  active_connections : List WS
  /-- Keys of the `channels` dict (`"channel" in self.channels`). -/
  registered : List String
  /-- Membership sets of the `channels` dict. -/
  chans : String → List WS
  /-- `connection_metadata`. -/
  meta : WS → Option Meta

/-- The freshly initialised manager: the five lexicon channels, all
empty. -/
def initManager : Manager where
  active_connections := []
  registered := ["dashboard", "trading", "positions", "sessions", "all"]
  chans := fun _ => []
  meta := fun _ => none

/-- Python `set.add`: insert if absent. -/
def setAdd (ws : WS) (l : List WS) : List WS :=
  if ws ∈ l then l else ws :: l

/-- Embedding of `connect(websocket, channel)`: register the channel
key if new, add the socket to that channel and to `"all"`, and store
fresh metadata. -/
def connect (m : Manager) (ws : WS) (channel : String) : Manager where
  active_connections := m.active_connections ++ [ws]
  registered := if channel ∈ m.registered then m.registered
                else m.registered ++ [channel]
  chans := fun c =>
    let afterChannel := fun c' => if c' = channel then setAdd ws (m.chans c')
                                  else m.chans c'
    if c = "all" then setAdd ws (afterChannel "all") else afterChannel c
  meta := fun w => if w = ws then some ⟨channel, 0⟩ else m.meta w

/-- Embedding of `disconnect(websocket)`: remove from
`active_connections` (first occurrence), discard from every channel
set, delete the metadata. -/
def disconnect (m : Manager) (ws : WS) : Manager where
  active_connections := m.active_connections.erase ws
  registered := m.registered
  chans := fun c => (m.chans c).filter (fun w => w ≠ ws)
  meta := fun w => if w = ws then none else m.meta w

/-- The `subscribe{channel}` handler of `websocket_endpoint`: if the
name is truthy and a key of the channels dict, add the socket. -/
def subscribe (m : Manager) (ws : WS) (channel : String) : Manager :=
  if channel ≠ "" ∧ channel ∈ m.registered then
    { m with chans := fun c => if c = channel then setAdd ws (m.chans c)
                               else m.chans c }
  else m

/-- The `unsubscribe{channel}` handler of `websocket_endpoint`: if the
name is truthy and a key of the channels dict, discard the socket from
that one channel. -/
def unsubscribe (m : Manager) (ws : WS) (channel : String) : Manager :=
  if channel ≠ "" ∧ channel ∈ m.registered then
    { m with chans := fun c => if c = channel then
                                 (m.chans c).filter (fun w => w ≠ ws)
                               else m.chans c }
  else m

/-- What `broadcast` observes for one subscriber: its
`client_state` check and, when sent to, the result of
`_send_with_timeout` — `ok` (returns `True`), `timeout`
(`asyncio.TimeoutError` caught, returns `False`) or `sendError` (the
send raised; `gather` hands back the exception). -/
inductive SendOutcome where
  | notConnected
  | ok
  | timeout
  | sendError
deriving DecidableEq, Repr

/-- `messages_sent += 1` on a successful send. -/
def incMeta (m : Manager) (ws : WS) : Manager :=
  { m with meta := fun w => if w = ws then
      (m.meta w).map (fun md => { md with messages_sent := md.messages_sent + 1 })
    else m.meta w }

/-- Embedding of `broadcast(message, channel)`: snapshot the channel's
membership; sort each connection into `disconnected` (non-`CONNECTED`
state) or the send list; gather the sends; increment metadata for
`True` results and append exception results to `disconnected`; a
`False` (timed-out) result falls into neither branch; finally call
`disconnect` on everything collected. -/
def broadcast (m : Manager) (channel : String) (outcome : WS → SendOutcome) :
    Manager :=
  if channel ∈ m.registered then
    let connections := m.chans channel
    let disconnectedPre := connections.filter
      (fun ws => outcome ws = SendOutcome.notConnected)
    let valid := connections.filter
      (fun ws => outcome ws ≠ SendOutcome.notConnected)
    let afterMeta := valid.foldl
      (fun acc ws => if outcome ws = SendOutcome.ok then incMeta acc ws else acc) m
    let disconnected := disconnectedPre ++
      valid.filter (fun ws => outcome ws = SendOutcome.sendError)
    disconnected.foldl disconnect afterMeta
  else m

/-- Invariant E2 of the bus: a subscriber present in any channel is
also present in `"all"`. -/
def E2 (m : Manager) : Prop :=
  ∀ c ws, ws ∈ m.chans c → ws ∈ m.chans "all"

end WebsocketManager

end Autobot

namespace Autobot

/-! ### Helper lemmas about the stable descending sort -/

namespace OrderOrchestrator

theorem mem_insertByCreatedDesc {a o : OrderRow} {l : List OrderRow} :
    a ∈ insertByCreatedDesc o l ↔ a = o ∨ a ∈ l := by
  induction l with
  | nil => simp [insertByCreatedDesc]
  | cons x xs ih =>
    unfold insertByCreatedDesc
    split
    · rw [List.mem_cons, ih, List.mem_cons]
      tauto
    · rw [List.mem_cons, List.mem_cons]

theorem mem_sortByCreatedDesc {a : OrderRow} {l : List OrderRow} :
    a ∈ sortByCreatedDesc l ↔ a ∈ l := by
  induction l with
  | nil => simp [sortByCreatedDesc]
  | cons x xs ih =>
    show a ∈ insertByCreatedDesc x (sortByCreatedDesc xs) ↔ _
    rw [mem_insertByCreatedDesc, ih, List.mem_cons]

theorem pairwise_insertByCreatedDesc {o : OrderRow} {l : List OrderRow}
    (h : l.Pairwise createdGE) :
    (insertByCreatedDesc o l).Pairwise createdGE := by
  induction l with
  | nil => simp [insertByCreatedDesc]
  | cons x xs ih =>
    unfold insertByCreatedDesc
    obtain ⟨hx, hxs⟩ := List.pairwise_cons.1 h
    split
    · rename_i hlt
      refine List.pairwise_cons.2 ⟨?_, ih hxs⟩
      intro b hb
      rcases mem_insertByCreatedDesc.1 hb with rfl | hbx
      · exact le_of_lt hlt
      · exact hx b hbx
    · rename_i hge
      refine List.pairwise_cons.2 ⟨?_, h⟩
      intro b hb
      rcases List.mem_cons.1 hb with rfl | hbxs
      · exact not_lt.1 hge
      · exact le_trans (hx b hbxs) (not_lt.1 hge)

theorem shouldClose_eq (ea : Option Int) (now : Int) (pl : ℚ) :
    shouldClose ea now pl =
      if 100 ≤ pl then (true, "Target profit reached")
      else if pl ≤ -50 then (true, "Stop loss triggered")
      else
        match ea with
        | some t =>
          if 300 < now - t then (true, "Max holding time exceeded")
          else (false, "")
        | none => (false, "") := by
  cases ea <;> rfl

theorem pairwise_sortByCreatedDesc (l : List OrderRow) :
    (sortByCreatedDesc l).Pairwise createdGE := by
  induction l with
  | nil => simp [sortByCreatedDesc]
  | cons x xs ih => exact pairwise_insertByCreatedDesc ih

theorem head_sortByCreatedDesc_max {l : List OrderRow} {h : OrderRow}
    (hh : (sortByCreatedDesc l).head? = some h) :
    h ∈ l ∧ ∀ a ∈ l, a.created_at ≤ h.created_at := by
  obtain ⟨t, ht⟩ : ∃ t, sortByCreatedDesc l = h :: t := by
    cases hs : sortByCreatedDesc l with
    | nil => rw [hs] at hh; cases hh
    | cons y t =>
      rw [hs] at hh
      cases hh
      exact ⟨t, rfl⟩
  refine ⟨mem_sortByCreatedDesc.1 (ht ▸ List.mem_cons_self h t), ?_⟩
  intro a ha
  have hmem : a ∈ sortByCreatedDesc l := mem_sortByCreatedDesc.2 ha
  rw [ht] at hmem
  rcases List.mem_cons.1 hmem with rfl | hat
  · exact le_rfl
  · have hp := pairwise_sortByCreatedDesc l
    rw [ht] at hp
    exact (List.pairwise_cons.1 hp).1 a hat

end OrderOrchestrator

/-! ### Helper lemmas about the connection manager -/

namespace WebsocketManager

theorem mem_setAdd_self (ws : WS) (l : List WS) : ws ∈ setAdd ws l := by
  unfold setAdd; split
  · assumption
  · exact List.mem_cons_self ws l

theorem mem_setAdd_of_mem {w : WS} {l : List WS} (ws : WS) (h : w ∈ l) :
    w ∈ setAdd ws l := by
  unfold setAdd; split
  · exact h
  · exact List.mem_cons_of_mem ws h

theorem mem_setAdd_iff {w ws : WS} {l : List WS} :
    w ∈ setAdd ws l ↔ w = ws ∨ w ∈ l := by
  unfold setAdd; split
  · exact ⟨.inr, fun h => h.elim (fun hw => hw ▸ ‹ws ∈ l›) id⟩
  · exact List.mem_cons

theorem disconnect_chans (m : Manager) (ws : WS) (c : String) :
    (disconnect m ws).chans c = (m.chans c).filter (fun w => w ≠ ws) := rfl

theorem connect_chans (m : Manager) (ws : WS) (channel c : String) :
    (connect m ws channel).chans c =
      if c = "all" then
        setAdd ws (if "all" = channel then setAdd ws (m.chans "all")
                   else m.chans "all")
      else if c = channel then setAdd ws (m.chans c) else m.chans c := rfl

theorem subscribe_chans (m : Manager) (ws : WS) (channel c : String)
    (hcond : channel ≠ "" ∧ channel ∈ m.registered) :
    (subscribe m ws channel).chans c =
      if c = channel then setAdd ws (m.chans c) else m.chans c := by
  unfold subscribe
  rw [if_pos hcond]

theorem subscribe_skip (m : Manager) (ws : WS) (channel : String)
    (hcond : ¬ (channel ≠ "" ∧ channel ∈ m.registered)) :
    subscribe m ws channel = m := by
  unfold subscribe
  rw [if_neg hcond]

theorem unsubscribe_chans (m : Manager) (ws : WS) (channel c : String)
    (hcond : channel ≠ "" ∧ channel ∈ m.registered) :
    (unsubscribe m ws channel).chans c =
      if c = channel then (m.chans c).filter (fun w => w ≠ ws)
      else m.chans c := by
  unfold unsubscribe
  rw [if_pos hcond]

theorem unsubscribe_skip (m : Manager) (ws : WS) (channel : String)
    (hcond : ¬ (channel ≠ "" ∧ channel ∈ m.registered)) :
    unsubscribe m ws channel = m := by
  unfold unsubscribe
  rw [if_neg hcond]

theorem not_mem_disconnect (m : Manager) (ws : WS) (c : String) :
    ws ∉ (disconnect m ws).chans c := by
  rw [disconnect_chans]
  intro h
  have := List.of_mem_filter h
  simp at this

theorem foldl_disconnect_not_mem_preserved {ws : WS} {c : String}
    (d : List WS) (m : Manager) (h : ws ∉ m.chans c) :
    ws ∉ (d.foldl disconnect m).chans c := by
  induction d generalizing m with
  | nil => exact h
  | cons a d ih =>
    rw [List.foldl_cons]
    exact ih (disconnect m a) (by
      rw [disconnect_chans]
      intro hmem
      exact h (List.mem_of_mem_filter hmem))

theorem foldl_disconnect_not_mem {ws : WS} {c : String}
    (d : List WS) (m : Manager) (h : ws ∈ d) :
    ws ∉ (d.foldl disconnect m).chans c := by
  induction d generalizing m with
  | nil => cases h
  | cons a d ih =>
    rw [List.foldl_cons]
    by_cases ha : ws = a
    · subst ha
      exact foldl_disconnect_not_mem_preserved d (disconnect m ws)
        (not_mem_disconnect m ws c)
    · exact ih (disconnect m a) (by
        cases List.mem_cons.1 h with
        | inl h' => exact absurd h' ha
        | inr h' => exact h')

theorem foldl_disconnect_mem_preserved {ws : WS} {c : String}
    (d : List WS) (m : Manager) (hnd : ws ∉ d) (h : ws ∈ m.chans c) :
    ws ∈ (d.foldl disconnect m).chans c := by
  induction d generalizing m with
  | nil => exact h
  | cons a d ih =>
    rw [List.foldl_cons]
    have ha : ws ≠ a := fun hb => hnd (hb ▸ List.mem_cons_self a d)
    exact ih (disconnect m a) (fun hm => hnd (List.mem_cons_of_mem a hm))
      (by rw [disconnect_chans]
          exact List.mem_filter.2 ⟨h, by simp [ha]⟩)

theorem disconnect_meta (m : Manager) (ws w : WS) :
    (disconnect m ws).meta w = if w = ws then none else m.meta w := rfl

theorem foldl_disconnect_meta_none {ws : WS}
    (d : List WS) (m : Manager) (h : ws ∈ d ∨ m.meta ws = none) :
    ((d.foldl disconnect m).meta ws) = none := by
  induction d generalizing m with
  | nil =>
    cases h with
    | inl h' => cases h'
    | inr h' => exact h'
  | cons a d ih =>
    rw [List.foldl_cons]
    by_cases ha : ws = a
    · exact ih (disconnect m a) (.inr (by rw [disconnect_meta, if_pos ha]))
    · cases h with
      | inl h' =>
        cases List.mem_cons.1 h' with
        | inl h'' => exact absurd h'' ha
        | inr h'' => exact ih (disconnect m a) (.inl h'')
      | inr h' =>
        exact ih (disconnect m a) (.inr (by rw [disconnect_meta, if_neg ha]; exact h'))

theorem foldl_disconnect_meta_preserved {ws : WS}
    (d : List WS) (m : Manager) (hnd : ws ∉ d) :
    ((d.foldl disconnect m).meta ws) = m.meta ws := by
  induction d generalizing m with
  | nil => rfl
  | cons a d ih =>
    rw [List.foldl_cons]
    have ha : ws ≠ a := fun hb => hnd (hb ▸ List.mem_cons_self a d)
    rw [ih (disconnect m a) (fun hm => hnd (List.mem_cons_of_mem a hm)),
      disconnect_meta, if_neg ha]

theorem metaFold_chans (outcome : WS → SendOutcome) (l : List WS) (m : Manager) :
    (l.foldl (fun acc ws =>
        if outcome ws = SendOutcome.ok then incMeta acc ws else acc) m).chans
      = m.chans := by
  induction l generalizing m with
  | nil => rfl
  | cons a l ih =>
    rw [List.foldl_cons, ih]
    by_cases h : outcome a = SendOutcome.ok
    · rw [if_pos h]; rfl
    · rw [if_neg h]

theorem metaFold_meta {ws : WS} (outcome : WS → SendOutcome)
    (l : List WS) (m : Manager) (h : outcome ws ≠ SendOutcome.ok) :
    (l.foldl (fun acc ws =>
        if outcome ws = SendOutcome.ok then incMeta acc ws else acc) m).meta ws
      = m.meta ws := by
  induction l generalizing m with
  | nil => rfl
  | cons a l ih =>
    rw [List.foldl_cons, ih]
    by_cases ha : outcome a = SendOutcome.ok
    · rw [if_pos ha]
      have : ws ≠ a := fun hb => h (hb ▸ ha)
      simp [incMeta, this]
    · rw [if_neg ha]

theorem disconnect_E2 (m : Manager) (ws : WS) (h : E2 m) : E2 (disconnect m ws) := by
  intro c w hw
  rw [disconnect_chans] at hw ⊢
  obtain ⟨hmem, hne⟩ := List.mem_filter.1 hw
  exact List.mem_filter.2 ⟨h c w hmem, hne⟩

theorem foldl_disconnect_E2 (d : List WS) (m : Manager) (h : E2 m) :
    E2 (d.foldl disconnect m) := by
  induction d generalizing m with
  | nil => exact h
  | cons a d ih => exact ih (disconnect m a) (disconnect_E2 m a h)

end WebsocketManager

/-! ### Theorems: eviction on publish (claim C1) -/

open WebsocketManager in
/-- C1 fails as stated: a subscriber whose send times out at the 5 s
deadline is *not* evicted — `_send_with_timeout` catches
`asyncio.TimeoutError` and returns `False`, and the result-processing
loop in `broadcast` evicts only exception results, so the `False`
branch leaves the subscriber in place for the next publish. -/
theorem broadcast_timeout_eviction_counterexample :
    ¬ (∀ (m : Manager) (channel : String) (outcome : WS → SendOutcome) (ws : WS),
        ws ∈ m.chans channel → outcome ws = SendOutcome.timeout →
        ∀ c, ws ∉ (broadcast m channel outcome).chans c) := by
  intro h
  exact h (connect initManager 0 "trading") "trading"
    (fun _ => SendOutcome.timeout) 0 (by decide) rfl "trading" (by decide)

open WebsocketManager in
/-- C1 amended: during a publish, a subscriber whose send *raises* or
which is observed in a non-`CONNECTED` state is evicted — absent from
every channel and its metadata removed — but a subscriber whose send
merely times out at the 5 s deadline is not evicted: it stays in the
channel with its metadata intact. -/
theorem broadcast_timeout_eviction
    (m : Manager) (channel : String) (outcome : WS → SendOutcome) (ws : WS)
    (hreg : channel ∈ m.registered)
    (hmem : ws ∈ m.chans channel) :
    ((outcome ws = SendOutcome.sendError ∨ outcome ws = SendOutcome.notConnected) →
      (∀ c, ws ∉ (broadcast m channel outcome).chans c) ∧
      (broadcast m channel outcome).meta ws = none) ∧
    (outcome ws = SendOutcome.timeout →
      ws ∈ (broadcast m channel outcome).chans channel ∧
      (broadcast m channel outcome).meta ws = m.meta ws) := by
  unfold broadcast
  rw [if_pos hreg]
  set conns := m.chans channel with hconns
  set pre := conns.filter (fun w => outcome w = SendOutcome.notConnected) with hpre
  set valid := conns.filter (fun w => outcome w ≠ SendOutcome.notConnected) with hvalid
  set afterMeta := valid.foldl
    (fun acc w => if outcome w = SendOutcome.ok then incMeta acc w else acc) m
    with hafter
  set disconnected := pre ++
    valid.filter (fun w => outcome w = SendOutcome.sendError) with hdisc
  constructor
  · intro hout
    have hin : ws ∈ disconnected := by
      rw [hdisc]
      cases hout with
      | inl herr =>
        refine List.mem_append_right _ ?_
        refine List.mem_filter.2 ⟨List.mem_filter.2 ⟨hmem, ?_⟩, by simp [herr]⟩
        simp [herr]
      | inr hnc =>
        exact List.mem_append_left _ (List.mem_filter.2 ⟨hmem, by simp [hnc]⟩)
    exact ⟨fun c => foldl_disconnect_not_mem disconnected afterMeta hin,
      foldl_disconnect_meta_none disconnected afterMeta (.inl hin)⟩
  · intro htime
    have hnin : ws ∉ disconnected := by
      rw [hdisc]
      intro hin
      cases List.mem_append.1 hin with
      | inl h' =>
        have := (List.mem_filter.1 h').2
        rw [htime] at this; simp at this
      | inr h' =>
        have := (List.mem_filter.1 h').2
        rw [htime] at this; simp at this
    constructor
    · refine foldl_disconnect_mem_preserved disconnected afterMeta hnin ?_
      rw [hafter, metaFold_chans]
      exact hmem
    · rw [foldl_disconnect_meta_preserved disconnected afterMeta hnin, hafter,
        metaFold_meta]
      rw [htime]; simp

open WebsocketManager in
/-- Witness for the amended C1: subscriber 0's send raises and
subscriber 1's send times out during a publish to `trading`; 0 is
evicted from every channel, 1 remains. -/
theorem broadcast_timeout_eviction_witness :
    ((0 : WS) ∈
      (connect (connect initManager 0 "trading") 1 "trading").chans "trading") ∧
    ((1 : WS) ∈
      (connect (connect initManager 0 "trading") 1 "trading").chans "trading") ∧
    (∀ c, (0 : WS) ∉
      (broadcast (connect (connect initManager 0 "trading") 1 "trading") "trading"
        (fun w => if w = 0 then SendOutcome.sendError else SendOutcome.timeout)).chans
        c) ∧
    ((1 : WS) ∈
      (broadcast (connect (connect initManager 0 "trading") 1 "trading") "trading"
        (fun w => if w = 0 then SendOutcome.sendError else SendOutcome.timeout)).chans
        "trading") := by
  refine ⟨by decide, by decide, ?_, ?_⟩
  · exact ((broadcast_timeout_eviction
      (connect (connect initManager 0 "trading") 1 "trading") "trading"
      (fun w => if w = 0 then SendOutcome.sendError else SendOutcome.timeout) 0
      (by decide) (by decide)).1 (.inl rfl)).1
  · exact ((broadcast_timeout_eviction
      (connect (connect initManager 0 "trading") 1 "trading") "trading"
      (fun w => if w = 0 then SendOutcome.sendError else SendOutcome.timeout) 1
      (by decide) (by decide)).2 rfl).1

/-! ### Theorems: membership in `all` (claim C8) -/

open WebsocketManager in
/-- C8 fails as stated: `unsubscribe` is applied to *any* channel in
the lexicon, including `all` itself, so a subscriber can unsubscribe
from `all` while remaining in its primary channel, violating E2 for
the next operation.  The state is the reachable one produced by
`connect(ws, "trading")`. -/
theorem bus_all_channel_invariant_counterexample :
    ¬ (∀ (m : Manager) (ws : WS) (channel : String),
        E2 m → E2 (unsubscribe m ws channel)) := by
  intro h
  have h1 : E2 (connect initManager 0 "trading") := by
    intro c w hw
    simp only [connect, initManager, setAdd] at hw ⊢
    by_cases hca : c = "all"
    · rw [if_pos hca] at hw
      simpa using hw
    · rw [if_neg hca] at hw
      by_cases hct : c = "trading"
      · rw [if_pos hct] at hw
        simpa using hw
      · rw [if_neg hct] at hw
        simp at hw
  have h2 := h (connect initManager 0 "trading") 0 "all" h1
  have h3 : (0 : WS) ∈ (unsubscribe (connect initManager 0 "trading") 0 "all").chans
      "trading" := by decide
  have h4 := h2 "trading" 0 h3
  revert h4
  decide

open WebsocketManager in
/-- C8 amended: E2 (a subscriber in any channel is also in `all`) is
preserved by `connect`, `disconnect` and `broadcast` (with its
evictions) unconditionally, by `subscribe` provided the subscriber is
still in `all`, and by `unsubscribe` provided the channel being left
is not `all` itself; unsubscribing from `all` violates E2. -/
theorem bus_all_channel_invariant
    (m : Manager) (ws : WS) (channel : String) (outcome : WS → SendOutcome)
    (h : E2 m) :
    E2 (connect m ws channel) ∧
    E2 (disconnect m ws) ∧
    (ws ∈ m.chans "all" → E2 (subscribe m ws channel)) ∧
    (channel ≠ "all" → E2 (unsubscribe m ws channel)) ∧
    E2 (broadcast m channel outcome) := by
  refine ⟨?_, disconnect_E2 m ws h, ?_, ?_, ?_⟩
  · intro c w hw
    rw [connect_chans] at hw
    rw [connect_chans, if_pos rfl]
    by_cases hca : c = "all"
    · rw [if_pos hca] at hw
      exact hw
    · rw [if_neg hca] at hw
      by_cases hcc : c = channel
      · rw [if_pos hcc] at hw
        cases mem_setAdd_iff.1 hw with
        | inl hww => exact hww ▸ mem_setAdd_self ws _
        | inr hmem =>
          refine mem_setAdd_of_mem ws ?_
          by_cases hac : ("all" : String) = channel
          · rw [if_pos hac]
            exact mem_setAdd_of_mem ws (h c w hmem)
          · rw [if_neg hac]
            exact h c w hmem
      · rw [if_neg hcc] at hw
        refine mem_setAdd_of_mem ws ?_
        by_cases hac : ("all" : String) = channel
        · rw [if_pos hac]
          exact mem_setAdd_of_mem ws (h c w hw)
        · rw [if_neg hac]
          exact h c w hw
  · intro hall c w hw
    by_cases hcond : channel ≠ "" ∧ channel ∈ m.registered
    · rw [subscribe_chans m ws channel c hcond] at hw
      rw [subscribe_chans m ws channel "all" hcond]
      by_cases hcc : c = channel
      · rw [if_pos hcc] at hw
        cases mem_setAdd_iff.1 hw with
        | inl hww =>
          subst hww
          by_cases hac : ("all" : String) = channel
          · rw [if_pos hac]
            exact mem_setAdd_of_mem w hall
          · rw [if_neg hac]
            exact hall
        | inr hmem =>
          by_cases hac : ("all" : String) = channel
          · rw [if_pos hac]
            exact mem_setAdd_of_mem ws (h c w hmem)
          · rw [if_neg hac]
            exact h c w hmem
      · rw [if_neg hcc] at hw
        by_cases hac : ("all" : String) = channel
        · rw [if_pos hac]
          exact mem_setAdd_of_mem ws (h c w hw)
        · rw [if_neg hac]
          exact h c w hw
    · rw [subscribe_skip m ws channel hcond] at hw ⊢
      exact h c w hw
  · intro hne c w hw
    by_cases hcond : channel ≠ "" ∧ channel ∈ m.registered
    · rw [unsubscribe_chans m ws channel c hcond] at hw
      rw [unsubscribe_chans m ws channel "all" hcond,
        if_neg (fun hx => hne hx.symm)]
      by_cases hcc : c = channel
      · rw [if_pos hcc] at hw
        exact h c w (List.mem_of_mem_filter hw)
      · rw [if_neg hcc] at hw
        exact h c w hw
    · rw [unsubscribe_skip m ws channel hcond] at hw ⊢
      exact h c w hw
  · unfold broadcast
    split
    · refine foldl_disconnect_E2 _ _ ?_
      intro c w hw
      rw [metaFold_chans] at hw ⊢
      exact h c w hw
    · exact h

open WebsocketManager in
/-- Witness for the amended C8 at the reachable state
`connect initManager 0 "trading"`. -/
theorem bus_all_channel_invariant_witness :
    E2 (connect (connect initManager 0 "trading") 1 "dashboard") ∧
    E2 (disconnect (connect initManager 0 "trading") 1) ∧
    E2 (subscribe (connect initManager 0 "trading") 0 "positions") ∧
    E2 (unsubscribe (connect initManager 0 "trading") 0 "trading") ∧
    E2 (broadcast (connect initManager 0 "trading") "trading"
      (fun _ => SendOutcome.ok)) := by
  have h1 : E2 (connect initManager 0 "trading") := by
    intro c w hw
    simp only [connect, initManager, setAdd] at hw ⊢
    by_cases hca : c = "all"
    · rw [if_pos hca] at hw
      simpa using hw
    · rw [if_neg hca] at hw
      by_cases hct : c = "trading"
      · rw [if_pos hct] at hw
        simpa using hw
      · rw [if_neg hct] at hw
        simp at hw
  have happ := bus_all_channel_invariant (connect initManager 0 "trading") 1
    "dashboard" (fun _ => SendOutcome.ok) h1
  have happ2 := bus_all_channel_invariant (connect initManager 0 "trading") 0
    "positions" (fun _ => SendOutcome.ok) h1
  have happ3 := bus_all_channel_invariant (connect initManager 0 "trading") 0
    "trading" (fun _ => SendOutcome.ok) h1
  exact ⟨happ.1, happ.2.1, happ2.2.2.1 (by decide),
    happ3.2.2.2.1 (by decide), happ3.2.2.2.2⟩

/-! ### Membership in the sweep classification -/

namespace SessionManager

theorem mem_healthy_iff (ss : List SessionRow) (now : Int) (uid : Int) :
    uid ∈ (classifySessions ss now).1 ↔
      ∃ s ∈ ss, s.user_id = uid ∧ ∃ t, s.expires_at = some t ∧ 300 < t - now := by
  induction ss with
  | nil => simp [classifySessions]
  | cons s rest ih =>
    simp only [classifySessions]
    cases hexp : s.expires_at with
    | none =>
      simp only [ih, List.mem_cons]
      constructor
      · rintro ⟨s', hs', rest'⟩; exact ⟨s', .inr hs', rest'⟩
      · rintro ⟨s', hs' | hs', huid, t, ht, hgt⟩
        · subst hs'; rw [hexp] at ht; cases ht
        · exact ⟨s', hs', huid, t, ht, hgt⟩
    | some t =>
      by_cases h0 : t - now ≤ 0
      · simp only [if_pos h0, ih, List.mem_cons]
        constructor
        · rintro ⟨s', hs', rest'⟩; exact ⟨s', .inr hs', rest'⟩
        · rintro ⟨s', hs' | hs', huid, t', ht', hgt⟩
          · subst hs'; rw [hexp] at ht'; cases ht'; omega
          · exact ⟨s', hs', huid, t', ht', hgt⟩
      · by_cases h300 : t - now ≤ 300
        · simp only [if_neg h0, if_pos h300, ih, List.mem_cons]
          constructor
          · rintro ⟨s', hs', rest'⟩; exact ⟨s', .inr hs', rest'⟩
          · rintro ⟨s', hs' | hs', huid, t', ht', hgt⟩
            · subst hs'; rw [hexp] at ht'; cases ht'; omega
            · exact ⟨s', hs', huid, t', ht', hgt⟩
        · simp only [if_neg h0, if_neg h300, List.mem_cons, ih]
          constructor
          · rintro (rfl | ⟨s', hs', rest'⟩)
            · exact ⟨s, .inl rfl, rfl, t, hexp, by omega⟩
            · exact ⟨s', .inr hs', rest'⟩
          · rintro ⟨s', hs' | hs', huid, t', ht', hgt⟩
            · subst hs'; exact .inl huid.symm
            · exact .inr ⟨s', hs', huid, t', ht', hgt⟩

theorem mem_expiring_iff (ss : List SessionRow) (now : Int) (uid : Int) :
    uid ∈ (classifySessions ss now).2.1 ↔
      ∃ s ∈ ss, s.user_id = uid ∧
        ∃ t, s.expires_at = some t ∧ 0 < t - now ∧ t - now ≤ 300 := by
  induction ss with
  | nil => simp [classifySessions]
  | cons s rest ih =>
    simp only [classifySessions]
    cases hexp : s.expires_at with
    | none =>
      simp only [ih, List.mem_cons]
      constructor
      · rintro ⟨s', hs', rest'⟩; exact ⟨s', .inr hs', rest'⟩
      · rintro ⟨s', hs' | hs', huid, t, ht, hgt⟩
        · subst hs'; rw [hexp] at ht; cases ht
        · exact ⟨s', hs', huid, t, ht, hgt⟩
    | some t =>
      by_cases h0 : t - now ≤ 0
      · simp only [if_pos h0, ih, List.mem_cons]
        constructor
        · rintro ⟨s', hs', rest'⟩; exact ⟨s', .inr hs', rest'⟩
        · rintro ⟨s', hs' | hs', huid, t', ht', hgt⟩
          · subst hs'; rw [hexp] at ht'; cases ht'; omega
          · exact ⟨s', hs', huid, t', ht', hgt⟩
      · by_cases h300 : t - now ≤ 300
        · simp only [if_neg h0, if_pos h300, List.mem_cons, ih]
          constructor
          · rintro (rfl | ⟨s', hs', rest'⟩)
            · exact ⟨s, .inl rfl, rfl, t, hexp, by omega, h300⟩
            · exact ⟨s', .inr hs', rest'⟩
          · rintro ⟨s', hs' | hs', huid, t', ht', hgt⟩
            · subst hs'; exact .inl huid.symm
            · exact .inr ⟨s', hs', huid, t', ht', hgt⟩
        · simp only [if_neg h0, if_neg h300, ih, List.mem_cons]
          constructor
          · rintro ⟨s', hs', rest'⟩; exact ⟨s', .inr hs', rest'⟩
          · rintro ⟨s', hs' | hs', huid, t', ht', hgt, hle⟩
            · subst hs'; rw [hexp] at ht'; cases ht'; omega
            · exact ⟨s', hs', huid, t', ht', hgt, hle⟩

theorem mem_expired_iff (ss : List SessionRow) (now : Int) (uid : Int) :
    uid ∈ (classifySessions ss now).2.2 ↔
      ∃ s ∈ ss, s.user_id = uid ∧ ∃ t, s.expires_at = some t ∧ t - now ≤ 0 := by
  induction ss with
  | nil => simp [classifySessions]
  | cons s rest ih =>
    simp only [classifySessions]
    cases hexp : s.expires_at with
    | none =>
      simp only [ih, List.mem_cons]
      constructor
      · rintro ⟨s', hs', rest'⟩; exact ⟨s', .inr hs', rest'⟩
      · rintro ⟨s', hs' | hs', huid, t, ht, hgt⟩
        · subst hs'; rw [hexp] at ht; cases ht
        · exact ⟨s', hs', huid, t, ht, hgt⟩
    | some t =>
      by_cases h0 : t - now ≤ 0
      · simp only [if_pos h0, List.mem_cons, ih]
        constructor
        · rintro (rfl | ⟨s', hs', rest'⟩)
          · exact ⟨s, .inl rfl, rfl, t, hexp, h0⟩
          · exact ⟨s', .inr hs', rest'⟩
        · rintro ⟨s', hs' | hs', huid, t', ht', hgt⟩
          · subst hs'; exact .inl huid.symm
          · exact .inr ⟨s', hs', huid, t', ht', hgt⟩
      · by_cases h300 : t - now ≤ 300
        · simp only [if_neg h0, if_pos h300, ih, List.mem_cons]
          constructor
          · rintro ⟨s', hs', rest'⟩; exact ⟨s', .inr hs', rest'⟩
          · rintro ⟨s', hs' | hs', huid, t', ht', hgt⟩
            · subst hs'; rw [hexp] at ht'; cases ht'; omega
            · exact ⟨s', hs', huid, t', ht', hgt⟩
        · simp only [if_neg h0, if_neg h300, ih, List.mem_cons]
          constructor
          · rintro ⟨s', hs', rest'⟩; exact ⟨s', .inr hs', rest'⟩
          · rintro ⟨s', hs' | hs', huid, t', ht', hgt⟩
            · subst hs'; rw [hexp] at ht'; cases ht'; omega
            · exact ⟨s', hs', huid, t', ht', hgt⟩

end SessionManager

/-! ### Theorems: sweep classification (claim C5) -/

open SessionManager in
/-- C5 fails as stated: a session row whose `expires_at` is `NULL` (the
column is nullable) is placed in none of the three uid sets, so their
union is not the input set.  This refutes the universally quantified
partition claim. -/
theorem sweep_partition_counterexample :
    ¬ (∀ (ss : List SessionRow) (now : Int),
        ∀ uid ∈ ss.map SessionRow.user_id,
          uid ∈ (classifySessions ss now).1 ∨
          uid ∈ (classifySessions ss now).2.1 ∨
          uid ∈ (classifySessions ss now).2.2) := by
  intro h
  have := h [⟨1, none⟩] 0 1 (by simp)
  simp [classifySessions] at this

open SessionManager in
/-- C5 amended: for active sessions that all carry an `expires_at`
(invariant S2) and have pairwise-distinct uids (invariant S1), the
three uid sets returned by the sweep are pairwise disjoint, their
union is exactly the input uid set, and membership is decided by
`healthy ↔ expiresAt − now > 5 min`, `expiringSoon ↔ 0 < expiresAt −
now ≤ 5 min`, `expired ↔ expiresAt ≤ now`; sessions with a `NULL`
`expires_at` would fall in no set. -/
theorem sweep_partition (ss : List SessionRow) (now : Int)
    (h e x : List Int)
    (hc : classifySessions ss now = (h, e, x))
    (hexp : ∀ s ∈ ss, s.expires_at ≠ none)
    (hnd : (ss.map SessionRow.user_id).Nodup) :
    (∀ uid, ¬(uid ∈ h ∧ uid ∈ e)) ∧
    (∀ uid, ¬(uid ∈ h ∧ uid ∈ x)) ∧
    (∀ uid, ¬(uid ∈ e ∧ uid ∈ x)) ∧
    (∀ uid, (uid ∈ h ∨ uid ∈ e ∨ uid ∈ x) ↔ uid ∈ ss.map SessionRow.user_id) ∧
    (∀ s ∈ ss, ∀ t, s.expires_at = some t →
      ((s.user_id ∈ h ↔ 300 < t - now) ∧
       (s.user_id ∈ e ↔ (0 < t - now ∧ t - now ≤ 300)) ∧
       (s.user_id ∈ x ↔ t - now ≤ 0))) := by
  have hinj : ∀ s₁ ∈ ss, ∀ s₂ ∈ ss, s₁.user_id = s₂.user_id → s₁ = s₂ := by
    intro s₁ h₁ s₂ h₂ hu
    exact List.inj_on_of_nodup_map hnd h₁ h₂ hu
  have hh : ∀ uid, uid ∈ h ↔
      ∃ s ∈ ss, s.user_id = uid ∧ ∃ t, s.expires_at = some t ∧ 300 < t - now := by
    intro uid; rw [← mem_healthy_iff ss now uid, hc]
  have he : ∀ uid, uid ∈ e ↔
      ∃ s ∈ ss, s.user_id = uid ∧
        ∃ t, s.expires_at = some t ∧ 0 < t - now ∧ t - now ≤ 300 := by
    intro uid; rw [← mem_expiring_iff ss now uid, hc]
  have hx : ∀ uid, uid ∈ x ↔
      ∃ s ∈ ss, s.user_id = uid ∧ ∃ t, s.expires_at = some t ∧ t - now ≤ 0 := by
    intro uid; rw [← mem_expired_iff ss now uid, hc]
  refine ⟨?_, ?_, ?_, ?_, ?_⟩
  · rintro uid ⟨m₁, m₂⟩
    obtain ⟨s₁, hs₁, hu₁, t₁, ht₁, hc₁⟩ := (hh uid).1 m₁
    obtain ⟨s₂, hs₂, hu₂, t₂, ht₂, hc₂, _⟩ := (he uid).1 m₂
    obtain rfl := hinj s₁ hs₁ s₂ hs₂ (hu₁.trans hu₂.symm)
    rw [ht₁] at ht₂; cases ht₂; omega
  · rintro uid ⟨m₁, m₂⟩
    obtain ⟨s₁, hs₁, hu₁, t₁, ht₁, hc₁⟩ := (hh uid).1 m₁
    obtain ⟨s₂, hs₂, hu₂, t₂, ht₂, hc₂⟩ := (hx uid).1 m₂
    obtain rfl := hinj s₁ hs₁ s₂ hs₂ (hu₁.trans hu₂.symm)
    rw [ht₁] at ht₂; cases ht₂; omega
  · rintro uid ⟨m₁, m₂⟩
    obtain ⟨s₁, hs₁, hu₁, t₁, ht₁, hc₁, _⟩ := (he uid).1 m₁
    obtain ⟨s₂, hs₂, hu₂, t₂, ht₂, hc₂⟩ := (hx uid).1 m₂
    obtain rfl := hinj s₁ hs₁ s₂ hs₂ (hu₁.trans hu₂.symm)
    rw [ht₁] at ht₂; cases ht₂; omega
  · intro uid
    constructor
    · rintro (m | m | m)
      · obtain ⟨s, hs, hu, _⟩ := (hh uid).1 m
        exact hu ▸ List.mem_map_of_mem SessionRow.user_id hs
      · obtain ⟨s, hs, hu, _⟩ := (he uid).1 m
        exact hu ▸ List.mem_map_of_mem SessionRow.user_id hs
      · obtain ⟨s, hs, hu, _⟩ := (hx uid).1 m
        exact hu ▸ List.mem_map_of_mem SessionRow.user_id hs
    · intro hm
      obtain ⟨s, hs, hu⟩ := List.mem_map.1 hm
      obtain ⟨t, ht⟩ := Option.ne_none_iff_exists'.1 (hexp s hs)
      rcases lt_trichotomy (t - now) 0 with h0 | h0 | h0
      · exact .inr (.inr ((hx uid).2 ⟨s, hs, hu, t, ht, by omega⟩))
      · exact .inr (.inr ((hx uid).2 ⟨s, hs, hu, t, ht, by omega⟩))
      · by_cases h300 : t - now ≤ 300
        · exact .inr (.inl ((he uid).2 ⟨s, hs, hu, t, ht, h0, h300⟩))
        · exact .inl ((hh uid).2 ⟨s, hs, hu, t, ht, by omega⟩)
  · intro s hs t ht
    refine ⟨⟨?_, fun hgt => (hh _).2 ⟨s, hs, rfl, t, ht, hgt⟩⟩,
           ⟨?_, fun hgt => (he _).2 ⟨s, hs, rfl, t, ht, hgt.1, hgt.2⟩⟩,
           ⟨?_, fun hgt => (hx _).2 ⟨s, hs, rfl, t, ht, hgt⟩⟩⟩
    · intro m
      obtain ⟨s', hs', hu', t', ht', hc'⟩ := (hh _).1 m
      obtain rfl := hinj s' hs' s hs hu'
      rw [ht] at ht'; cases ht'; omega
    · intro m
      obtain ⟨s', hs', hu', t', ht', hc'⟩ := (he _).1 m
      obtain rfl := hinj s' hs' s hs hu'
      rw [ht] at ht'; cases ht'; exact ⟨by omega, by omega⟩
    · intro m
      obtain ⟨s', hs', hu', t', ht', hc'⟩ := (hx _).1 m
      obtain rfl := hinj s' hs' s hs hu'
      rw [ht] at ht'; cases ht'; omega

open SessionManager in
/-- Witness for the amended C5 at three concrete sessions (healthy,
expiring soon, expired) observed at `now = 0`. -/
theorem sweep_partition_witness :
    (classifySessions
        [⟨1, some 1000⟩, ⟨2, some 200⟩, ⟨3, some (-5)⟩] 0 = ([1], [2], [3])) ∧
    ((∀ uid, ¬(uid ∈ [(1 : Int)] ∧ uid ∈ [(2 : Int)])) ∧
     (∀ uid, ¬(uid ∈ [(1 : Int)] ∧ uid ∈ [(3 : Int)])) ∧
     (∀ uid, ¬(uid ∈ [(2 : Int)] ∧ uid ∈ [(3 : Int)])) ∧
     (∀ uid, (uid ∈ [(1 : Int)] ∨ uid ∈ [(2 : Int)] ∨ uid ∈ [(3 : Int)]) ↔
        uid ∈ ([⟨1, some 1000⟩, ⟨2, some 200⟩,
                 ⟨3, some (-5)⟩] : List SessionRow).map SessionRow.user_id) ∧
     (∀ s ∈ ([⟨1, some 1000⟩, ⟨2, some 200⟩,
               ⟨3, some (-5)⟩] : List SessionRow), ∀ t, s.expires_at = some t →
        ((s.user_id ∈ [(1 : Int)] ↔ 300 < t - 0) ∧
         (s.user_id ∈ [(2 : Int)] ↔ (0 < t - 0 ∧ t - 0 ≤ 300)) ∧
         (s.user_id ∈ [(3 : Int)] ↔ t - 0 ≤ 0)))) :=
  ⟨by decide,
    sweep_partition [⟨1, some 1000⟩, ⟨2, some 200⟩, ⟨3, some (-5)⟩] 0
      [1] [2] [3] (by decide) (by decide) (by decide)⟩

/-! ### Theorems: decrypt failure handling (claims C2) -/

open Encryption in
/-- C2 fails as stated: with the key set and Fernet decryption
failing, `decrypt_sensitive_data` silently returns the base64-decoded
fallback when that decode succeeds, and the ciphertext *unchanged*
when it does not — where the specification's `Decrypt` returns the
distinguished `CryptoError`. -/
theorem decrypt_failure_counterexample :
    decrypt_sensitive_data ⟨some "key", none, none⟩ "ciphertext" = "ciphertext" ∧
    decrypt_sensitive_data ⟨some "key", none, some "hunter2"⟩ "aHVudGVyMg==" =
      "hunter2" ∧
    decrypt_spec ⟨some "key", none, none⟩ "ciphertext" =
      .error (.decryptFailure "ciphertext") := by
  exact ⟨rfl, rfl, rfl⟩

open Encryption SessionManager in
/-- C2 amended: on decrypt failure the function falls back to plain
base64 decoding and, failing that, returns the ciphertext unchanged —
it never surfaces an error — and the affected user's login does *not*
fail because of it: whenever the upstream login succeeds (with the
fallback password) and the commit succeeds, `login_user` reports
success. -/
theorem decrypt_failure_silent_fallback
    (denv : Encryption.DecryptEnv) (k data : String)
    (hk : denv.encryption_key = some k)
    (hf : denv.fernet_decrypt = none)
    (lenv : LoginEnv) (u : UserRow) (bundle : TokenBundle)
    (hdec : lenv.decrypt = denv)
    (hu : lenv.users.find? (fun x => x.id = u.id) = some u)
    (hact : u.is_active = true)
    (hapi : lenv.api_login u.id 0 = .ok bundle)
    (htok : bundle.token ≠ none)
    (htok2 : bundle.trading_api_token ≠ none)
    (hcommit : lenv.commit_ok u.id = true) :
    decrypt_sensitive_data denv data =
      (match denv.b64_decode with
       | some s => s
       | none => data) ∧
    (login_user lenv u.id 0).success = true := by
  constructor
  · unfold decrypt_sensitive_data
    rw [hk, hf]
  · unfold login_user
    rw [hu]
    dsimp only
    rw [if_neg (fun hcontra => by rw [hact] at hcontra; cases hcontra)]
    rw [hapi]
    dsimp only
    rw [if_neg (by simp [htok, htok2]), if_pos hcommit]

open Encryption SessionManager in
/-- Witness for the amended C2: a concrete environment where Fernet
decryption fails, base64 fallback also fails, and the login still
succeeds. -/
theorem decrypt_failure_silent_fallback_witness :
    decrypt_sensitive_data ⟨some "key", none, none⟩ "opaque-blob" =
      "opaque-blob" ∧
    (login_user
        { users := [⟨7, "a@b.c", "opaque-blob", "42", true⟩],
          decrypt := ⟨some "key", none, none⟩,
          api_login := fun _ _ => .ok ⟨some "tok", some "ttok", some "acc"⟩,
          commit_ok := fun _ => true,
          max_retry_attempts := 3 } 7 0).success = true := by
  have := decrypt_failure_silent_fallback
    ⟨some "key", none, none⟩ "key" "opaque-blob" rfl rfl
    { users := [⟨7, "a@b.c", "opaque-blob", "42", true⟩],
      decrypt := ⟨some "key", none, none⟩,
      api_login := fun _ _ => .ok ⟨some "tok", some "ttok", some "acc"⟩,
      commit_ok := fun _ => true,
      max_retry_attempts := 3 }
    ⟨7, "a@b.c", "opaque-blob", "42", true⟩
    ⟨some "tok", some "ttok", some "acc"⟩
    rfl rfl rfl rfl (by decide) (by decide) rfl
  exact ⟨this.1, this.2⟩

/-! ### Theorems: position sizing (claim C6) -/

/-- C6: for every requested volume `v ≥ 0` and balances `b₁ < b₂`,
`PositionSizer(b₁, v) ≤ PositionSizer(b₂, v) ≤ v`, where the sizer
returns `min(v, 0.01)` below 1000, `min(v, 0.05)` below 5000 and `v`
otherwise. -/
theorem position_sizer_monotone (b₁ b₂ v : ℚ) (hb : b₁ < b₂) (hv : 0 ≤ v) :
    OrderOrchestrator.calculate_position_size b₁ v ≤
      OrderOrchestrator.calculate_position_size b₂ v ∧
    OrderOrchestrator.calculate_position_size b₂ v ≤ v := by
  unfold OrderOrchestrator.calculate_position_size
  have h01 : (1 : ℚ) / 100 ≤ 5 / 100 := by norm_num
  constructor
  · by_cases h1 : b₁ < 1000
    · simp only [if_pos h1]
      by_cases h2 : b₂ < 1000
      · simp [if_pos h2]
      · simp only [if_neg h2]
        by_cases h3 : b₂ < 5000
        · simp only [if_pos h3]
          exact min_le_min le_rfl h01
        · simp only [if_neg h3]
          exact min_le_left _ _
    · simp only [if_neg h1]
      have h2 : ¬ b₂ < 1000 := by push_neg at h1 ⊢; linarith
      by_cases h3 : b₁ < 5000
      · simp only [if_pos h3, if_neg h2]
        by_cases h4 : b₂ < 5000
        · simp [if_pos h4]
        · simp only [if_neg h4]
          exact min_le_left _ _
      · have h4 : ¬ b₂ < 5000 := by push_neg at h3 ⊢; linarith
        simp only [if_neg h3, if_neg h2, if_neg h4]
        exact le_rfl
  · by_cases h2 : b₂ < 1000
    · simp only [if_pos h2]
      exact min_le_left _ _
    · simp only [if_neg h2]
      by_cases h4 : b₂ < 5000
      · simp only [if_pos h4]
        exact min_le_left _ _
      · simp [if_neg h4]

/-- Witness for C6 at balances 500 < 8000 and requested volume 1/10. -/
theorem position_sizer_monotone_witness :
    (500 : ℚ) < 8000 ∧ (0 : ℚ) ≤ 1 / 10 ∧
    (OrderOrchestrator.calculate_position_size 500 (1 / 10) ≤
        OrderOrchestrator.calculate_position_size 8000 (1 / 10) ∧
      OrderOrchestrator.calculate_position_size 8000 (1 / 10) ≤ 1 / 10) :=
  ⟨by norm_num, by norm_num,
    position_sizer_monotone 500 8000 (1 / 10) (by norm_num) (by norm_num)⟩

/-! ### Theorems: symbol-fallback reconciliation (claim C7) -/

open OrderOrchestrator in
/-- C7 fails as stated on the tie-break: the fallback query orders by
`created_at DESC` only (no secondary `oid` key), so between two
candidates with equal `created_at` the earlier row (oid 1) is
selected, not the highest oid (2): the inserted trade references
order 1 and order 2 is left `OPEN`. -/
theorem symbol_fallback_reconciliation_counterexample :
    ((record_trade
        ⟨[⟨1, 5, none, "BTCUSD", "LONG", "OPEN", 100, some 50, none⟩,
          ⟨2, 5, none, "BTCUSD", "LONG", "OPEN", 100, some 60, none⟩], []⟩
        true 5
        ⟨some "X", some "BTCUSD", some 10, none, none, some 1, none, none⟩
        ⟨some 11, some 5, none, some 0⟩ 200).trades.map TradeRow.order_id
      = [1]) ∧
    ((record_trade
        ⟨[⟨1, 5, none, "BTCUSD", "LONG", "OPEN", 100, some 50, none⟩,
          ⟨2, 5, none, "BTCUSD", "LONG", "OPEN", 100, some 60, none⟩], []⟩
        true 5
        ⟨some "X", some "BTCUSD", some 10, none, none, some 1, none, none⟩
        ⟨some 11, some 5, none, some 0⟩ 200).orders.map
        (fun o => (o.id, o.status))
      = [(1, "CLOSED"), (2, "OPEN")]) := by
  exact ⟨rfl, rfl⟩

open OrderOrchestrator in
/-- C7 amended: when the `upstreamId` lookup misses and a symbol is
present, the fallback selects among the user's `OPEN` orders for the
symbol one with the *greatest* `createdAt` (ties are resolved by the
underlying row order, not by highest oid); the selected order's
`upstreamId` is set if it was null, its status becomes `CLOSED`, and a
`Trade` row referencing it is inserted. -/
theorem symbol_fallback_reconciliation
    (db : DB) (user_id : Int) (p : UpPosition) (res : CloseResult) (now : Int)
    (sym : String) (sel : OrderRow)
    (hsym : p.symbol = some sym)
    (hmiss : findByUuid db.orders p.pid user_id = none)
    (hsel : findBySymbolFallback db.orders user_id sym = some sel) :
    (sel ∈ db.orders.filter
        (fun o => o.symbol = sym ∧ o.user_id = user_id ∧ o.status = "OPEN") ∧
      ∀ o ∈ db.orders.filter
        (fun o => o.symbol = sym ∧ o.user_id = user_id ∧ o.status = "OPEN"),
        o.created_at ≤ sel.created_at) ∧
    (∃ t : TradeRow,
      record_trade_attempt db true user_id p res now = .ok
        { orders := db.orders.map (fun x => if x.id = sel.id then
            { sel with
              status := "CLOSED",
              closed_at := some now,
              order_uuid := (match p.pid, sel.order_uuid with
                | some q, none => some q
                | _, _ => sel.order_uuid) } else x),
          trades := db.trades ++ [t] } ∧
      t.order_id = sel.id ∧ t.user_id = user_id) := by
  constructor
  · exact head_sortByCreatedDesc_max hsel
  · simp only [record_trade_attempt, hmiss, hsym, hsel]
    exact ⟨_, rfl, rfl, rfl⟩

open OrderOrchestrator in
/-- Witness for the amended C7: two `OPEN` orders with distinct
`createdAt`; the more recent one (oid 2, created 150) is selected,
closed and referenced by the inserted trade. -/
theorem symbol_fallback_reconciliation_witness :
    ((⟨2, 5, none, "BTCUSD", "LONG", "OPEN", 150, some 60, none⟩ : OrderRow) ∈
      ([⟨1, 5, none, "BTCUSD", "LONG", "OPEN", 100, some 50, none⟩,
        ⟨2, 5, none, "BTCUSD", "LONG", "OPEN", 150, some 60, none⟩] :
          List OrderRow).filter
        (fun o => o.symbol = "BTCUSD" ∧ o.user_id = 5 ∧ o.status = "OPEN") ∧
      ∀ o ∈ ([⟨1, 5, none, "BTCUSD", "LONG", "OPEN", 100, some 50, none⟩,
        ⟨2, 5, none, "BTCUSD", "LONG", "OPEN", 150, some 60, none⟩] :
          List OrderRow).filter
        (fun o => o.symbol = "BTCUSD" ∧ o.user_id = 5 ∧ o.status = "OPEN"),
        o.created_at ≤ (150 : Int)) ∧
    (∃ t : TradeRow,
      record_trade_attempt
        ⟨[⟨1, 5, none, "BTCUSD", "LONG", "OPEN", 100, some 50, none⟩,
          ⟨2, 5, none, "BTCUSD", "LONG", "OPEN", 150, some 60, none⟩], []⟩
        true 5
        ⟨some "X", some "BTCUSD", some 10, none, none, some 1, none, none⟩
        ⟨some 11, some 5, none, some 0⟩ 200 = .ok
        { orders := ([⟨1, 5, none, "BTCUSD", "LONG", "OPEN", 100, some 50, none⟩,
            ⟨2, 5, none, "BTCUSD", "LONG", "OPEN", 150, some 60, none⟩] :
              List OrderRow).map (fun x => if x.id = (2 : Int) then
            { (⟨2, 5, none, "BTCUSD", "LONG", "OPEN", 150, some 60, none⟩ :
                OrderRow) with
              status := "CLOSED",
              closed_at := some 200,
              order_uuid :=
                (match (some "X" : Option String), (none : Option String) with
                | some q, none => some q
                | _, _ => (none : Option String)) } else x),
          trades := [] ++ [t] } ∧
      t.order_id = 2 ∧ t.user_id = 5) :=
  symbol_fallback_reconciliation
    ⟨[⟨1, 5, none, "BTCUSD", "LONG", "OPEN", 100, some 50, none⟩,
      ⟨2, 5, none, "BTCUSD", "LONG", "OPEN", 150, some 60, none⟩], []⟩
    5 ⟨some "X", some "BTCUSD", some 10, none, none, some 1, none, none⟩
    ⟨some 11, some 5, none, some 0⟩ 200 "BTCUSD"
    ⟨2, 5, none, "BTCUSD", "LONG", "OPEN", 150, some 60, none⟩
    rfl rfl rfl

/-! ### Theorems: auto-close policy (claim C9) -/

open OrderOrchestrator in
/-- C9 fails on "first hit wins": when both the max-holding-time rule
(position held 301 s) and the profit target (`currentProfit = 100`)
hit, the source's sequential checks let the *later* profit check
overwrite the holding-time verdict, so the recorded reason is
`Target profit reached`, not the first-listed `Max holding time
exceeded` that the specification's order demands. -/
theorem auto_close_policy_counterexample :
    shouldClose (some 0) 301 100 = (true, "Target profit reached") ∧
    shouldCloseSpec (some 0) 301 100 = (true, "Max holding time exceeded") ∧
    shouldClose (some 0) 301 100 ≠ shouldCloseSpec (some 0) 301 100 := by
  refine ⟨by decide, by decide, by decide⟩

open OrderOrchestrator in
/-- C9 amended: a reconciled position is closed (and its trade
recorded) *iff* at least one of the three conditions holds — holding
time over 300 s, profit ≥ +100, loss ≤ −50 — but the reason is
resolved with the *last* P&L hit winning: profit target first, then
loss cutoff, and the holding-time reason only when neither P&L
threshold fires. -/
theorem auto_close_policy
    (ea : Option Int) (now : Int) (pl : ℚ)
    (db : DB) (env : SupervisorEnv) (user_id : Int) (p : UpPosition)
    (o : OrderRow) (res : CloseResult)
    (hfind : findByUuidAnyUser db.orders p.pid = some o)
    (hclose : env.close_result p.pid = .ok res)
    (hpl : pyOr p.profit (p.profit_loss.getD 0) = pl)
    (hea : o.executed_at = ea) :
    ((shouldClose ea now pl).1 = true ↔
      ((∃ t, ea = some t ∧ 300 < now - t) ∨ 100 ≤ pl ∨ pl ≤ -50)) ∧
    (100 ≤ pl → (shouldClose ea now pl).2 = "Target profit reached") ∧
    (pl < 100 → pl ≤ -50 → (shouldClose ea now pl).2 = "Stop loss triggered") ∧
    (-50 < pl → pl < 100 → ∀ t, ea = some t → 300 < now - t →
      (shouldClose ea now pl).2 = "Max holding time exceeded") ∧
    ((check_user_positions db env user_id (.ok [p]) now).2 =
      if (shouldClose ea now pl).1 then 1 else 0) := by
  refine ⟨?_, ?_, ?_, ?_, ?_⟩
  · rw [shouldClose_eq]
    by_cases hp : (100 : ℚ) ≤ pl
    · simp [hp]
    · by_cases hl : pl ≤ (-50 : ℚ)
      · simp [hp, hl]
      · rw [if_neg hp, if_neg hl]
        cases ea with
        | none => simp [hp, hl]
        | some t =>
          dsimp only
          by_cases ht : 300 < now - t
          · rw [if_pos ht]
            exact iff_of_true rfl (.inl ⟨t, rfl, ht⟩)
          · rw [if_neg ht]
            refine iff_of_false (by simp) ?_
            rintro (⟨t', ht', hgt⟩ | hc | hc)
            · cases ht'
              exact ht hgt
            · exact hp hc
            · exact hl hc
  · intro hp
    rw [shouldClose_eq, if_pos hp]
  · intro hp hl
    rw [shouldClose_eq, if_neg (not_le.2 hp), if_pos hl]
  · intro hl hp t ht hgt
    rw [shouldClose_eq, if_neg (not_le.2 hp), if_neg (not_le.2 hl), ht]
    dsimp only
    rw [if_pos hgt]
  · unfold check_user_positions
    simp only [List.foldl_cons, List.foldl_nil]
    unfold check_user_positions_step
    simp only [hfind, hpl, hea, hclose]
    by_cases hsc : (shouldClose ea now pl).1
    · rw [if_pos hsc, if_pos hsc]
    · rw [if_neg hsc, if_neg hsc]

open OrderOrchestrator in
/-- Witness for the amended C9: a position held 400 s with zero P&L is
closed for the max-holding-time reason, and the supervisor step counts
exactly one close. -/
theorem auto_close_policy_witness :
    ((shouldClose (some 0) 400 0).1 = true ↔
      ((∃ t, (some 0 : Option Int) = some t ∧ 300 < (400 : Int) - t) ∨
        (100 : ℚ) ≤ 0 ∨ (0 : ℚ) ≤ -50)) ∧
    ((100 : ℚ) ≤ 0 → (shouldClose (some 0) 400 0).2 = "Target profit reached") ∧
    ((0 : ℚ) < 100 → (0 : ℚ) ≤ -50 →
      (shouldClose (some 0) 400 0).2 = "Stop loss triggered") ∧
    ((-50 : ℚ) < 0 → (0 : ℚ) < 100 → ∀ t, (some 0 : Option Int) = some t →
      300 < (400 : Int) - t →
      (shouldClose (some 0) 400 0).2 = "Max holding time exceeded") ∧
    ((check_user_positions
        ⟨[⟨1, 5, some "X", "BTCUSD", "LONG", "OPEN", 50, some 0, none⟩], []⟩
        sampleSupervisorEnv 5
        (.ok [⟨some "X", some "BTCUSD", some 10, none, none, some 1, none, none⟩])
        400).2 =
      if (shouldClose (some 0) 400 0).1 then 1 else 0) :=
  auto_close_policy (some 0) 400 0
    ⟨[⟨1, 5, some "X", "BTCUSD", "LONG", "OPEN", 50, some 0, none⟩], []⟩
    sampleSupervisorEnv 5
    ⟨some "X", some "BTCUSD", some 10, none, none, some 1, none, none⟩
    ⟨1, 5, some "X", "BTCUSD", "LONG", "OPEN", 50, some 0, none⟩
    ⟨some 11, some 5, none, some 0⟩
    rfl rfl (by decide) rfl

/-! ### Theorems: record-trade failures are swallowed (claim C10) -/

open OrderOrchestrator in
/-- C10 confirmed: when the commit inside `_record_trade` fails, the
body raises internally (after rollback), the catch-all swallows it, so
the database keeps the order `OPEN` with no `Trade` row — and
`_close_positions_for_user` still reports success and counts the
position as closed. -/
theorem record_trade_failure_swallowed
    (db : DB) (user_id : Int) (o : OrderRow) (p : UpPosition)
    (res : CloseResult) (now : Int) (env : CloseUserEnv)
    (hfound : findByUuid db.orders p.pid user_id = some o)
    (hpos : env.positions_result = .ok [p])
    (hclose : env.close_result p.pid = .ok res)
    (hcommit : env.commit_ok p.pid = false) :
    record_trade_attempt db (env.commit_ok p.pid) user_id p res now =
      .error "commit failed" ∧
    record_trade db (env.commit_ok p.pid) user_id p res now = db ∧
    close_positions_for_user db env user_id none now =
      (db, ⟨true, user_id, 1, none⟩) := by
  have h1 : record_trade_attempt db (env.commit_ok p.pid) user_id p res now =
      .error "commit failed" := by
    simp only [record_trade_attempt, hfound, hcommit]
    rfl
  have h2 : record_trade db (env.commit_ok p.pid) user_id p res now = db := by
    unfold record_trade
    rw [h1]
  refine ⟨h1, h2, ?_⟩
  simp only [close_positions_for_user, hpos]
  simp only [List.isEmpty_cons, List.foldl_cons, List.foldl_nil, hclose, h2,
    List.filter, ite_false, Bool.false_eq_true]
  rfl

open OrderOrchestrator in
/-- Witness for C10: a concrete user with one upstream position whose
close succeeds but whose trade commit fails; the close is still
reported as a success with one position counted, the order stays
`OPEN` and no trade row exists. -/
theorem record_trade_failure_swallowed_witness :
    record_trade_attempt
      ⟨[⟨1, 5, some "X", "BTCUSD", "LONG", "OPEN", 50, some 0, none⟩], []⟩
      false 5 ⟨some "X", some "BTCUSD", some 10, none, none, some 1, none, none⟩
      ⟨some 11, some 5, none, some 0⟩ 400 = .error "commit failed" ∧
    record_trade
      ⟨[⟨1, 5, some "X", "BTCUSD", "LONG", "OPEN", 50, some 0, none⟩], []⟩
      false 5 ⟨some "X", some "BTCUSD", some 10, none, none, some 1, none, none⟩
      ⟨some 11, some 5, none, some 0⟩ 400 =
      ⟨[⟨1, 5, some "X", "BTCUSD", "LONG", "OPEN", 50, some 0, none⟩], []⟩ ∧
    close_positions_for_user
      ⟨[⟨1, 5, some "X", "BTCUSD", "LONG", "OPEN", 50, some 0, none⟩], []⟩
      { positions_result :=
          .ok [⟨some "X", some "BTCUSD", some 10, none, none, some 1, none, none⟩],
        close_result := fun _ => .ok ⟨some 11, some 5, none, some 0⟩,
        commit_ok := fun _ => false }
      5 none 400 =
      (⟨[⟨1, 5, some "X", "BTCUSD", "LONG", "OPEN", 50, some 0, none⟩], []⟩,
        ⟨true, 5, 1, none⟩) :=
  record_trade_failure_swallowed
    ⟨[⟨1, 5, some "X", "BTCUSD", "LONG", "OPEN", 50, some 0, none⟩], []⟩
    5 ⟨1, 5, some "X", "BTCUSD", "LONG", "OPEN", 50, some 0, none⟩
    ⟨some "X", some "BTCUSD", some 10, none, none, some 1, none, none⟩
    ⟨some 11, some 5, none, some 0⟩ 400
    { positions_result :=
        .ok [⟨some "X", some "BTCUSD", some 10, none, none, some 1, none, none⟩],
      close_result := fun _ => .ok ⟨some 11, some 5, none, some 0⟩,
      commit_ok := fun _ => false }
    rfl rfl rfl rfl

/-! ### Theorems: fan-out over an empty session pool (claim C3) -/

open OrderOrchestrator in
/-- C3 fails as stated: with an empty session-pool snapshot the source
returns the error dict `success=False, error="No active sessions"`
(executed_count 0), not the `success=True, executedCount=0` the
specification assigns. -/
theorem execute_signal_empty_sessions_counterexample :
    (execute_signal_for_all ⟨[], []⟩
        { sessions := [],
          get_balance := fun _ => .error "no session",
          open_position := fun _ => .error "no session",
          open_commit_ok := fun _ => false,
          close_env := fun _ => sampleCloseUserEnv }
        ⟨"OPEN_LONG", some "BTCUSD", some (1 / 10), none, none⟩ 0).2 =
      .failure "No active sessions" ∧
    ((execute_signal_for_all ⟨[], []⟩
        { sessions := [],
          get_balance := fun _ => .error "no session",
          open_position := fun _ => .error "no session",
          open_commit_ok := fun _ => false,
          close_env := fun _ => sampleCloseUserEnv }
        ⟨"OPEN_LONG", some "BTCUSD", some (1 / 10), none, none⟩ 0).2.success =
      false) ∧
    ((execute_signal_for_all ⟨[], []⟩
        { sessions := [],
          get_balance := fun _ => .error "no session",
          open_position := fun _ => .error "no session",
          open_commit_ok := fun _ => false,
          close_env := fun _ => sampleCloseUserEnv }
        ⟨"OPEN_LONG", some "BTCUSD", some (1 / 10), none, none⟩
        0).2.executed_count = 0) :=
  ⟨rfl, rfl, rfl⟩

open OrderOrchestrator in
/-- C3 amended: a fan-out over zero sessions returns `success=False`
with error `No active sessions` and `executed_count = 0`, while any
fan-out over a non-empty snapshot with a recognised action returns
`success=True`. -/
theorem execute_signal_empty_sessions
    (db : DB) (env : ExecEnv) (signal : Signal) (now : Int) :
    (env.sessions = [] →
      execute_signal_for_all db env signal now =
        (db, .failure "No active sessions")) ∧
    (env.sessions ≠ [] →
      (pyUpper signal.action = "OPEN_LONG" ∨
        pyUpper signal.action = "OPEN_SHORT" ∨
        pyUpper signal.action = "CLOSE" ∨
        pyUpper signal.action = "CLOSE_ALL") →
      (execute_signal_for_all db env signal now).2.success = true) := by
  constructor
  · intro hs
    unfold execute_signal_for_all
    rw [hs]
    rfl
  · intro hs hact
    unfold execute_signal_for_all
    rw [if_neg (by simp [List.isEmpty_iff, hs])]
    rcases hact with h | h | h | h <;> rw [h] <;> simp [ExecResult.success]

open OrderOrchestrator in
/-- Witness for the amended C3: the empty pool yields the error dict;
a two-session pool with `OPEN_LONG` yields `success=True`. -/
theorem execute_signal_empty_sessions_witness :
    (execute_signal_for_all ⟨[], []⟩
        { sessions := [],
          get_balance := fun _ => .error "no session",
          open_position := fun _ => .error "no session",
          open_commit_ok := fun _ => false,
          close_env := fun _ => sampleCloseUserEnv }
        sampleSignal 0 = (⟨[], []⟩, .failure "No active sessions")) ∧
    (execute_signal_for_all ⟨[], []⟩ sampleExecEnv sampleSignal 0).2.success =
      true :=
  ⟨(execute_signal_empty_sessions ⟨[], []⟩
      { sessions := [],
        get_balance := fun _ => .error "no session",
        open_position := fun _ => .error "no session",
        open_commit_ok := fun _ => false,
        close_env := fun _ => sampleCloseUserEnv }
      sampleSignal 0).1 rfl,
    (execute_signal_empty_sessions ⟨[], []⟩ sampleExecEnv sampleSignal 0).2
      (by decide) (.inl (by decide))⟩

/-! ### Theorems: collection entry points never raise (claim C4) -/

theorem length_filter_not_split {α : Type} (l : List α) (f : α → Bool) :
    (l.filter f).length + (l.filter (fun a => ¬ f a)).length = l.length := by
  induction l with
  | nil => rfl
  | cons a l ih =>
    rw [List.filter_cons, List.filter_cons]
    by_cases h : f a
    · rw [if_pos h, if_neg (by simp [h])]
      simp only [List.length_cons]
      omega
    · rw [if_neg h, if_pos (by simp [h])]
      simp only [List.length_cons]
      omega

open SessionManager in
theorem deactivateAll_ok (f : Int → Except String Unit) (L : List Int)
    (h : ∀ uid ∈ L, f uid = .ok ()) : deactivateAll f L = .ok () := by
  induction L with
  | nil => rfl
  | cons a L ih =>
    have ha := h a (List.mem_cons_self a L)
    have hL := ih (fun uid hm => h uid (List.mem_cons_of_mem a hm))
    show (f a >>= fun _ => deactivateAll f L) = .ok ()
    rw [ha]
    exact hL

open OrderOrchestrator in
theorem monitor_step_fields (env : SupervisorEnv) (now : Int)
    (acc : DB × MonitorResult)
    (s : SessionDict × Except String (List UpPosition)) :
    (monitor_step env now acc s).2.checked = acc.2.checked ∧
    (monitor_step env now acc s).2.errors =
      (if s.1.token = none ∨ s.1.trading_api_token = none
       then acc.2.errors + 1 else acc.2.errors) := by
  unfold monitor_step check_user_positions_call
  rcases htok : s.1.token with _ | t
  · simp [htok]
  · rcases htat : s.1.trading_api_token with _ | tt
    · simp [htok, htat]
    · simp [htok, htat]

open OrderOrchestrator in
theorem foldl_monitor_step (env : SupervisorEnv) (now : Int)
    (l : List (SessionDict × Except String (List UpPosition)))
    (acc : DB × MonitorResult) :
    (l.foldl (monitor_step env now) acc).2.checked = acc.2.checked ∧
    (l.foldl (monitor_step env now) acc).2.errors =
      acc.2.errors + (l.filter (fun s =>
        s.1.token = none ∨ s.1.trading_api_token = none)).length := by
  induction l generalizing acc with
  | nil => simp
  | cons a l ih =>
    rw [List.foldl_cons, List.filter_cons]
    obtain ⟨hc, he⟩ := ih (monitor_step env now acc a)
    obtain ⟨hc', he'⟩ := monitor_step_fields env now acc a
    by_cases hbad : a.1.token = none ∨ a.1.trading_api_token = none
    · rw [if_pos hbad] at he'
      rw [if_pos (decide_eq_true hbad)]
      refine ⟨hc.trans hc', ?_⟩
      rw [he, he', List.length_cons]
      omega
    · rw [if_neg hbad] at he'
      rw [if_neg (fun h => hbad (of_decide_eq_true h))]
      exact ⟨hc.trans hc', by rw [he, he']⟩

open SessionManager OrderOrchestrator in
/-- C4 fails as stated for `Sweep`: the per-user deactivation
`db.execute(update(...))` of an expired session is *not* wrapped in а
`try`, so a repository failure for that one user propagates out of
`check_session_health` instead of being folded into the report (the
session with `expires_at = 0` observed at `now = 10` is expired; its
deactivation errors). -/
theorem collection_entry_points_no_raise_counterexample :
    check_session_health
      ⟨[⟨1, some 0⟩], fun _ => .error "database error", true⟩ 10 =
      .error "database error" := rfl

open SessionManager OrderOrchestrator in
/-- C4 amended: `LoginAll`, `RefreshAll`, `Execute` and the supervisor
tick never raise on per-item failures — each returns a structured
aggregate enumerating per-item outcomes (the tick counts in `errors`
every session whose `_check_user_positions` call raised; since the
tick's session dicts come from `get_active_sessions`, which emits no
`token`/`trading_api_token` keys, and those keys are read before the
`try`, every real per-session call is counted there) — and `Sweep`
returns its report whenever the per-user deactivation writes succeed;
a failing deactivation write, however, propagates (see the
counterexample). -/
theorem collection_entry_points_no_raise
    (lenv : LoginEnv) (renv : RefreshEnv) (db : DB) (eenv : ExecEnv)
    (signal : Signal) (senv : SupervisorEnv)
    (sessions : List (SessionDict × Except String (List UpPosition)))
    (swenv : SweepEnv) (now : Int) :
    ((login_all_users lenv).success = true ∧
      (login_all_users lenv).results.length =
        (lenv.users.filter (fun u => u.is_active)).length ∧
      (login_all_users lenv).successful_logins +
        (login_all_users lenv).failed_logins =
          (login_all_users lenv).total_users) ∧
    ((refresh_all_tokens renv).success = true ∧
      (refresh_all_tokens renv).total_sessions = renv.sessions.length ∧
      (refresh_all_tokens renv).successful_refreshes +
        (refresh_all_tokens renv).failed_refreshes =
          (refresh_all_tokens renv).total_sessions) ∧
    ((pyUpper signal.action = "OPEN_LONG" ∨ pyUpper signal.action = "OPEN_SHORT") →
      eenv.sessions ≠ [] →
      (execute_signal_for_all db eenv signal now).2.success = true ∧
      (execute_signal_for_all db eenv signal now).2.executed_count +
        (execute_signal_for_all db eenv signal now).2.failed_count =
          eenv.sessions.length) ∧
    ((monitor_positions_once db senv sessions now).2.checked = sessions.length ∧
      (monitor_positions_once db senv sessions now).2.errors =
        (sessions.filter (fun s =>
          s.1.token = none ∨ s.1.trading_api_token = none)).length ∧
      ∀ rows, ∀ d ∈ get_active_sessions_dict rows,
        d.token = none ∧ d.trading_api_token = none) ∧
    ((∀ uid ∈ (classifySessions swenv.sessions now).2.2,
        swenv.deactivate uid = .ok ()) →
      ∃ r, check_session_health swenv now = .ok r) := by
  refine ⟨?_, ?_, ?_, ?_, ?_⟩
  · unfold login_all_users
    by_cases hu : (lenv.users.filter (fun u => u.is_active)).isEmpty
    · rw [if_pos hu]
      refine ⟨rfl, ?_, rfl⟩
      rw [List.isEmpty_iff.1 hu]
      rfl
    · rw [if_neg hu]
      refine ⟨rfl, by dsimp only; rw [List.length_map], ?_⟩
      dsimp only
      rw [List.length_map]
      have hle := List.length_filter_le (fun r => r.success)
        ((lenv.users.filter (fun u => u.is_active)).map
          (fun u => login_user lenv u.id 0))
      rw [List.length_map] at hle
      omega
  · unfold refresh_all_tokens
    by_cases hs : renv.sessions.isEmpty
    · rw [if_pos hs]
      refine ⟨rfl, ?_, rfl⟩
      rw [List.isEmpty_iff.1 hs]
      rfl
    · rw [if_neg hs]
      refine ⟨rfl, rfl, ?_⟩
      dsimp only
      rw [List.length_map]
      have hle := List.length_filter_le (fun r => r.success)
        (renv.sessions.map (fun s => refresh_token renv s.user_id))
      rw [List.length_map] at hle
      omega
  · intro hact hne
    unfold execute_signal_for_all
    rw [if_neg (by simp [List.isEmpty_iff, hne])]
    rcases hact with h | h <;> rw [h] <;>
      rw [if_pos (by simp)] <;>
      refine ⟨rfl, ?_⟩ <;>
      dsimp only [ExecResult.executed_count, ExecResult.failed_count] <;>
      rw [length_filter_not_split, List.length_map]
  · refine ⟨(foldl_monitor_step senv now sessions
      (db, ⟨sessions.length, 0, 0⟩)).1, ?_, ?_⟩
    · have h := (foldl_monitor_step senv now sessions
        (db, ⟨sessions.length, 0, 0⟩)).2
      simpa using h
    · intro rows d hd
      simp only [get_active_sessions_dict, List.mem_map] at hd
      obtain ⟨r, _, rfl⟩ := hd
      exact ⟨rfl, rfl⟩
  · intro hok
    have hd := deactivateAll_ok swenv.deactivate
      (classifySessions swenv.sessions now).2.2 hok
    refine Exists.intro
      { total_sessions := swenv.sessions.length,
        healthy := (classifySessions swenv.sessions now).1.length,
        expiring_soon := (classifySessions swenv.sessions now).2.1.length,
        expired := (classifySessions swenv.sessions now).2.2.length,
        healthy_user_ids := (classifySessions swenv.sessions now).1,
        expiring_user_ids := (classifySessions swenv.sessions now).2.1,
        expired_user_ids := (classifySessions swenv.sessions now).2.2 } ?_
    simp only [check_session_health]
    rw [hd]
    rfl

open SessionManager OrderOrchestrator in
/-- Witness for the amended C4 at the sample environments: two active
users (one failing), two sessions, a two-session fan-out, a supervisor
tick over one session dict without token keys (its caught `KeyError`
is counted in `errors`), and a sweep with one expired session whose
deactivation succeeds. -/
theorem collection_entry_points_no_raise_witness :
    (login_all_users sampleLoginEnv).success = true ∧
    (login_all_users sampleLoginEnv).results.length = 2 ∧
    (refresh_all_tokens sampleRefreshEnv).success = true ∧
    ((execute_signal_for_all ⟨[], []⟩ sampleExecEnv sampleSignal 0).2.success =
        true ∧
      (execute_signal_for_all ⟨[], []⟩ sampleExecEnv sampleSignal
          0).2.executed_count +
        (execute_signal_for_all ⟨[], []⟩ sampleExecEnv sampleSignal
          0).2.failed_count = 2) ∧
    ((monitor_positions_once ⟨[], []⟩ sampleSupervisorEnv
        [(⟨5, none, none⟩, .ok [])] 0).2.checked = 1 ∧
      (monitor_positions_once ⟨[], []⟩ sampleSupervisorEnv
        [(⟨5, none, none⟩, .ok [])] 0).2.errors = 1) ∧
    (∃ r, check_session_health sampleSweepEnv 0 = .ok r) := by
  have happ := collection_entry_points_no_raise sampleLoginEnv sampleRefreshEnv
    ⟨[], []⟩ sampleExecEnv sampleSignal sampleSupervisorEnv
    [(⟨5, none, none⟩, .ok [])] sampleSweepEnv 0
  refine ⟨happ.1.1, ?_, happ.2.1.1, ?_, ?_, ?_⟩
  · exact happ.1.2.1.trans (by rfl)
  · refine ⟨(happ.2.2.1 (.inl (by decide)) (by decide)).1, ?_⟩
    exact (happ.2.2.1 (.inl (by decide)) (by decide)).2
  · exact ⟨(happ.2.2.2.1).1, (happ.2.2.2.1).2.1.trans (by rfl)⟩
  · exact happ.2.2.2.2 (fun uid hm => rfl)

end Autobot
